import Mathlib

/-!
Verification development for the Turnix Reliable RPC Session Engine
(`src/frontend/assets/rpc-client.js`).  The JavaScript client is shallowly
embedded: the mutable `RpcClient` instance becomes an explicit `ClientState`
record, JS `Map`s become association lists in insertion order, and observable
side effects (socket writes, timer operations, promise settlements, handler
dispatches) are collected as an explicit list of `Event`s returned next to the
updated state.  Host facilities (`JSON.parse`, `uuidv7`, `performance.now`,
timers) are modelled: `JSON.parse` as a small executable JSON parser over the
same grammar (integers only for numbers, which covers every input considered
here), `uuidv7` as a monotone counter `nextUuid` (uniqueness of uuids becomes
freshness over already-used keys), and the clock as an ambient `clock` field.
-/

namespace Turnix

/-- JavaScript values produced by `JSON.parse`: null, booleans, numbers
(restricted to integers in this model), strings, arrays and objects. -/
inductive JsValue where
  | null
  | bool (b : Bool)
  | num (n : Int)
  | str (s : String)
  | arr (elems : List JsValue)
  | obj (fields : List (String × JsValue))
deriving Repr

/-- JavaScript truthiness of a JSON value: null, false, 0 and the empty
string are falsy; arrays and objects are always truthy. -/
def jsTruthy : JsValue → Bool
  | .null => false
  | .bool b => b
  | .num n => n != 0
  | .str s => s != ""
  | .arr _ => true
  | .obj _ => true

/-- Whitespace skipping for the JSON reader. -/
def skipWs : List Char → List Char
  | [] => []
  | c :: rest =>
      if c = ' ' || c = '\t' || c = '\n' || c = '\r' then skipWs rest
      else c :: rest

/-- Longest prefix of decimal digits. -/
def takeDigits : List Char → (List Char × List Char)
  | [] => ([], [])
  | c :: rest =>
      if c.isDigit then
        let p := takeDigits rest
        (c :: p.1, p.2)
      else ([], c :: rest)

/-- Decimal digits to a natural number, accumulator style. -/
def digitsToNat (acc : Nat) : List Char → Nat
  | [] => acc
  | c :: rest => digitsToNat (acc * 10 + (c.toNat - 48)) rest

/-- Body of a JSON string literal after the opening quote; consumes up to and
including the closing quote.  Escapes are simplified: backslash-n and
backslash-t become control characters, any other escaped character stands for
itself. -/
def parseStringChars : Nat → List Char → Option (String × List Char)
  | 0, _ => none
  | _, [] => none
  | fuel+1, c :: rest =>
      if c = Char.ofNat 34 then some ("", rest)
      else if c = '\\' then
        match rest with
        | [] => none
        | e :: rest2 =>
            let ec := if e = 'n' then '\n' else if e = 't' then '\t' else e
            match parseStringChars fuel rest2 with
            | some (s, r) => some (String.mk (ec :: s.data), r)
            | none => none
      else
        match parseStringChars fuel rest with
        | some (s, r) => some (String.mk (c :: s.data), r)
        | none => none

mutual

/-- Recursive-descent JSON value reader, fuelled to make termination obvious. -/
def parseJsonVal : Nat → List Char → Option (JsValue × List Char)
  | 0, _ => none
  | fuel+1, input =>
      match skipWs input with
      | [] => none
      | c :: rest =>
          if c = 'n' then
            match rest with
            | 'u' :: 'l' :: 'l' :: r => some (.null, r)
            | _ => none
          else if c = 't' then
            match rest with
            | 'r' :: 'u' :: 'e' :: r => some (.bool true, r)
            | _ => none
          else if c = 'f' then
            match rest with
            | 'a' :: 'l' :: 's' :: 'e' :: r => some (.bool false, r)
            | _ => none
          else if c = Char.ofNat 34 then
            match parseStringChars (fuel+1) rest with
            | some (s, r) => some (.str s, r)
            | none => none
          else if c = '-' then
            match takeDigits rest with
            | ([], _) => none
            | (ds, r) => some (.num (-(digitsToNat 0 ds : Int)), r)
          else if c.isDigit then
            match takeDigits (c :: rest) with
            | (ds, r) => some (.num (digitsToNat 0 ds), r)
          else if c = '[' then
            match skipWs rest with
            | c2 :: r2 =>
                if c2 = ']' then some (.arr [], r2)
                else
                  match parseArrItems fuel (c2 :: r2) with
                  | some (vs, r) => some (.arr vs, r)
                  | none => none
            | [] => none
          else if c = Char.ofNat 123 then
            match skipWs rest with
            | c2 :: r2 =>
                if c2 = Char.ofNat 125 then some (.obj [], r2)
                else
                  match parseObjItems fuel (c2 :: r2) with
                  | some (fs, r) => some (.obj fs, r)
                  | none => none
            | [] => none
          else none

/-- One-or-more comma-separated array items followed by a closing bracket. -/
def parseArrItems : Nat → List Char → Option (List JsValue × List Char)
  | 0, _ => none
  | fuel+1, input =>
      match parseJsonVal fuel input with
      | none => none
      | some (v, rest) =>
          match skipWs rest with
          | ',' :: r2 =>
              match parseArrItems fuel r2 with
              | some (vs, r) => some (v :: vs, r)
              | none => none
          | ']' :: r2 => some ([v], r2)
          | _ => none

/-- One-or-more comma-separated object members followed by a closing brace. -/
def parseObjItems : Nat → List Char → Option (List (String × JsValue) × List Char)
  | 0, _ => none
  | fuel+1, input =>
      match skipWs input with
      | c :: rest =>
          if c = Char.ofNat 34 then
            match parseStringChars (fuel+1) rest with
            | some (k, r1) =>
                match skipWs r1 with
                | ':' :: r2 =>
                    match parseJsonVal fuel r2 with
                    | some (v, r3) =>
                        match skipWs r3 with
                        | ',' :: r4 =>
                            match parseObjItems fuel r4 with
                            | some (fs, r) => some ((k, v) :: fs, r)
                            | none => none
                        | c5 :: r5 =>
                            if c5 = Char.ofNat 125 then some ([(k, v)], r5)
                            else none
                        | [] => none
                    | none => none
                | _ => none
            | none => none
          else none
      | [] => none

end

/-- Model of the host `JSON.parse`: parse one JSON value and require that only
whitespace remains.  Returns `none` where `JSON.parse` would throw. -/
def jsonParse (s : String) : Option JsValue :=
  match parseJsonVal (s.length + 1) s.data with
  | some (v, rest) => if skipWs rest = [] then some v else none
  | none => none

/-- Possible inputs to `normalizeMessage`: a string, an object-typed value, or
anything else (numbers, booleans, undefined, ...). -/
inductive JsInput where
  | strIn (s : String)
  | objIn (v : JsValue)
  | otherIn

/-- Characters that can start a JSON value, from the source literal used for
the quick pre-check in `normalizeMessage`. -/
def jsonStartChars : String := "\x7b[\"tfn-+0123456789"

/-- Embedding of `normalizeMessage` (rpc-client.js): trim a string input, drop
it when empty or when it cannot start a JSON value, otherwise hand it to
`JSON.parse` and return `null` when parsing throws; pass object inputs
through; reject anything else.  The host `trimStart` is modelled by skipping
leading JSON whitespace characters. -/
def normalizeMessage : JsInput → Option JsValue
  | .strIn s =>
      match skipWs s.data with
      | [] => none
      | first :: rest =>
          if jsonStartChars.data.contains first then
            jsonParse (String.mk (first :: rest))
          else none
  | .objIn v => some v
  | .otherIn => none

/-- Association-list lookup, standing in for `Map.get` (first match wins;
maps in the client always have distinct keys). -/
def alGet {κ α : Type} [DecidableEq κ] : List (κ × α) → κ → Option α
  | [], _ => none
  | (k, v) :: rest, key => if k = key then some v else alGet rest key

/-- Association-list update, standing in for `Map.set`: replace in place when
the key exists, otherwise append (JS maps preserve insertion order). -/
def alSet {κ α : Type} [DecidableEq κ] (l : List (κ × α)) (key : κ) (v : α) :
    List (κ × α) :=
  if (alGet l key).isSome then l.map (fun p => if p.1 = key then (key, v) else p)
  else l ++ [(key, v)]

/-- Association-list removal, standing in for `Map.delete`. -/
def alErase {κ α : Type} [DecidableEq κ] (l : List (κ × α)) (key : κ) :
    List (κ × α) :=
  l.filter (fun p => p.1 ≠ key)

/-- Error value thrown by the JS runtime on property access of `null`. -/
inductive JsError where
  | typeError
deriving Repr, DecidableEq

/-- Plain property access `v.f`: throws a `TypeError` on `null`, yields the
field on objects, and `undefined` (here `none`) on every other value. -/
def jsGet (v : JsValue) (f : String) : Except JsError (Option JsValue) :=
  match v with
  | .null => .error .typeError
  | .obj fields => .ok (alGet fields f)
  | _ => .ok none

/-- Optional-chaining access `v?.f`: total, `undefined` instead of a throw. -/
def jsFieldOpt (v : JsValue) (f : String) : Option JsValue :=
  match v with
  | .obj fields => alGet fields f
  | _ => none

/-- Read a string out of a possibly-absent JSON value. -/
def jsStrOf : Option JsValue → Option String
  | some (.str s) => some s
  | _ => none

/-- Read a non-negative integer out of a possibly-absent JSON value (message
identifiers and millisecond budgets are modelled as naturals). -/
def jsNatOf : Option JsValue → Option Nat
  | some (.num n) => if 0 ≤ n then some n.toNat else none
  | _ => none

/-- Connection generation (epoch): number plus random salt.  Both fields are
optional so that a malformed generation object with missing members still
compares the way JS strict inequality on `undefined` does. -/
structure Gen where
  num : Option Int := none
  salt : Option String := none
deriving Repr, DecidableEq

/-- Logical destination of a frame: a capability name or an object id. -/
structure Route where
  capability : Option String := none
  object : Option String := none
deriving Repr, DecidableEq

/-- JS string truthiness on an optional field: absent and empty are falsy. -/
def jsStrTruthy : Option String → Bool
  | none => false
  | some s => s != ""

/-- Options bag accepted by the caller-facing API (`request`, `subscribe`,
`emit`, ...).  `origin` is tracing metadata; it is modelled as an opaque
string tag because the engine only copies it around.  `cls` embeds the
reserved-word JS key `class`. -/
structure SubOpts where
  noAck : Bool := false
  priority : Option String := none
  cls : Option String := none
  budgetMs : Option Nat := none
  origin : Option String := none
  idempotencyKey : Option Nat := none
deriving Repr, DecidableEq

/-- Per-priority-class timeout configuration. -/
structure ClassCfg where
  serviceTtlMs : Nat
  clientPatienceExtraMs : Option Nat := none
deriving Repr, DecidableEq

/-- The slice of the settings object the session engine reads.  Every field is
optional because the source guards each access with `?.` and `??`. -/
structure Settings where
  ackWaitMs : Option Nat := none
  maxInFlightPerLane : Option Nat := none
  heartbeatMs : Option Nat := none
  maxQueue : Option Nat := none
  maxOfflineQueue : Option Nat := none
  timeoutCapMs : Option Nat := none
  timeoutClasses : Option (List (String × ClassCfg)) := none
deriving Repr, DecidableEq

/-- Embedding of `defaultSettings()` restricted to the fields the engine
reads. -/
def defaultSettings : Settings :=
  { ackWaitMs := some 250
    maxInFlightPerLane := some 64
    heartbeatMs := some 5000
    maxQueue := some 1024
    maxOfflineQueue := some 2000
    timeoutCapMs := some 30000
    timeoutClasses := some
      [ ("request.fast", { serviceTtlMs := 800, clientPatienceExtraMs := some 150 }),
        ("request.medium", { serviceTtlMs := 3000, clientPatienceExtraMs := some 200 }),
        ("request.heavy", { serviceTtlMs := 30000, clientPatienceExtraMs := some 250 }) ] }

/-- The wire envelope (`RPCMessage`).  Message identifiers are naturals drawn
from a monotone counter modelling `uuidv7()`.  Every field is optional, since
inbound frames may omit any of them. -/
structure RPCMessage where
  v : Option String := none
  type : Option String := none
  id : Option Nat := none
  ts : Option Nat := none
  correlatesTo : Option Nat := none
  lane : Option String := none
  gen : Option Gen := none
  budgetMs : Option Nat := none
  idempotencyKey : Option Nat := none
  route : Option Route := none
  op : Option String := none
  path : Option String := none
  args : Option JsValue := none
  seq : Option Nat := none
  origin : Option String := none
  payload : Option JsValue := none
deriving Repr

/-- Shape of one handler slot on a capability registration, distinguishing the
source checks `typeof h === "function"` (func) and `!h` (falsy/absent). -/
inductive HSlot where
  | missing
  | func
  | truthyNonFunc
deriving Repr, DecidableEq

/-- Local capability registration: up to three handlers. -/
structure CapHandlers where
  call : HSlot := .missing
  emit : HSlot := .missing
  subscribe : HSlot := .missing
deriving Repr, DecidableEq

/-- The stored originating invocation of a subscription. -/
structure Invocation where
  route : Route
  path : Option String := none
  op : Option String := none
deriving Repr, DecidableEq

/-- Caller-visible subscription handle.  `sid` is the mutable `id` property
(updated in place on resume); `jsOnCancel` records whether a cancellation
callback function is attached. -/
structure Subscription where
  sid : Nat
  invocation : Invocation
  opts : SubOpts := {}
  jsOnCancel : Bool := false
deriving Repr, DecidableEq

/-- Pending-table entry: whether it resolves on a bare ack and which lane its
completion callback releases. -/
structure PendingEntry where
  wantAck : Bool
  lane : String
deriving Repr, DecidableEq

/-- Per-lane mutable state. -/
structure LaneState where
  nextSeq : Nat := 1
  peerAck : Nat := 0
  inFlight : Nat := 0
  queue : List RPCMessage := []
deriving Repr

/-- Observable effects of one step of the engine, in emission order.  Promise
settlements, timer operations and handler dispatches are events because the
corresponding JS callbacks escape the state machine. -/
inductive Event where
  | wireSend (m : RPCMessage)
  | offlineQueued (m : RPCMessage)
  | offlineDropped (m : RPCMessage)
  | resolveAck (id : Nat)
  | resolvePayload (id : Nat) (payload : Option JsValue)
  | rejectP (id : Nat) (condition : String)
  | timerSet (id : Nat) (ms : Nat)
  | timerCleared (id : Nat)
  | invokeCall (cap : String) (path : Option String) (args : JsValue) (id : Option Nat)
  | invokeEmit (cap : String) (path : Option String) (payload : Option JsValue) (id : Option Nat)
  | invokeSubscribe (cap : String) (path : Option String) (payload : JsValue) (id : Option Nat)
  | subEmit (subId : Nat) (event : String) (payload : Option JsValue)
  | subCancelCb (subId : Nat)
  | readyChange (b : Bool)
  | welcomeEmit
  | logParseError
  | logWarn
  | reconnectScheduled (attempt : Nat) (delayBase : Nat)
  | closeSocket
deriving Repr

/-- Whole-client state: the mutable fields of the `RpcClient` instance.  The
WebSocket is reduced to `socketOpen` (readyState = OPEN), `uuidv7()` to the
counter `nextUuid`, and `performance.now()` to the ambient `clock`. -/
structure ClientState where
  settings : Settings := {}
  socketOpen : Bool := false
  connected : Bool := false
  ready : Bool := false
  generation : Option Gen := none
  lastWelcome : Option JsValue := none
  offlineQueue : List RPCMessage := []
  laneStates : List (String × LaneState) := []
  pending : List (Nat × PendingEntry) := []
  subscriptions : List (Nat × Subscription) := []
  localCaps : List (String × CapHandlers) := []
  heartbeatTimer : Option Nat := none
  awolTimer : Option Nat := none
  hbIntervalMs : Nat := 5000
  lastSeen : Nat := 0
  reconnectAttempts : Nat := 0
  nextUuid : Nat := 0
  clock : Nat := 0
deriving Repr

/-- JS truthiness of a possibly-absent value. -/
def jsTruthyOpt : Option JsValue → Bool
  | some v => jsTruthy v
  | none => false

/-- JS truthiness of an optional numeric field (`message.seq`): a present zero
is still falsy. -/
def jsSeqTruthy : Option Nat → Bool
  | some n => n != 0
  | none => false

/-- Embedding of `#laneKey`: derive a lane from the route.  The priority
argument is accepted and ignored exactly as in the source. -/
def laneKey (route : Option Route) (_prio : Option String) : String :=
  match route with
  | some r =>
      if jsStrTruthy r.capability then "cap:" ++ r.capability.getD ""
      else if jsStrTruthy r.object then "obj:" ++ r.object.getD ""
      else "noValidRouteLane"
  | none => "noValidRouteLane"

/-- Embedding of `#getLaneState`: fetch a lane record, creating the default
one on first use. -/
def getLaneState (st : ClientState) (lane : String) : LaneState × ClientState :=
  match alGet st.laneStates lane with
  | some ls => (ls, st)
  | none =>
      let ls : LaneState := {}
      (ls, { st with laneStates := alSet st.laneStates lane ls })

/-- Embedding of `#nextSeq`: return the lane sequence counter and advance it. -/
def nextSeq (st : ClientState) (lane : String) : Nat × ClientState :=
  let p := getLaneState st lane
  let ls := p.1
  let st := p.2
  (ls.nextSeq,
   { st with laneStates := alSet st.laneStates lane { ls with nextSeq := ls.nextSeq + 1 } })

/-- Embedding of `#resolveClassCfg`: map the options `class` key (falsy falls
back to `request.medium`) through the configured timeout classes, with the
hardcoded fallback pair. -/
def resolveClassCfg (st : ClientState) (opts : SubOpts) : ClassCfg :=
  let cls := if jsStrTruthy opts.cls then opts.cls.getD "" else "request.medium"
  (alGet (st.settings.timeoutClasses.getD []) cls).getD
    { serviceTtlMs := 3000, clientPatienceExtraMs := some 200 }

/-- Embedding of `#pickBudgetMs`. -/
def pickBudgetMs (st : ClientState) (opts : SubOpts) : Nat :=
  opts.budgetMs.getD (resolveClassCfg st opts).serviceTtlMs

/-- Embedding of `#sendRaw` (success path): a write is emitted only while the
socket is open.  The catch-and-close on a failed host write is not modelled
because the write itself is outside the state machine. -/
def sendRaw (st : ClientState) (m : RPCMessage) : ClientState × List Event :=
  if st.socketOpen then (st, [Event.wireSend m]) else (st, [])

/-- Embedding of `#enqueue`: write through while the socket is open, otherwise
append to the bounded offline queue, dropping the oldest entry at capacity. -/
def enqueue (st : ClientState) (m : RPCMessage) : ClientState × List Event :=
  if st.socketOpen then sendRaw st m
  else
    let maxOffline := st.settings.maxOfflineQueue.getD 2000
    if st.offlineQueue.length ≥ maxOffline then
      match st.offlineQueue with
      | [] => ({ st with offlineQueue := [m] }, [Event.offlineQueued m])
      | d :: rest =>
          ({ st with offlineQueue := rest ++ [m] },
           [Event.offlineDropped d, Event.offlineQueued m])
    else ({ st with offlineQueue := st.offlineQueue ++ [m] }, [Event.offlineQueued m])

/-- Embedding of `#flushQueue`: while open, drain the offline queue to the
socket in arrival order. -/
def flushQueue (st : ClientState) : ClientState × List Event :=
  if st.socketOpen then
    let q := st.offlineQueue
    ({ st with offlineQueue := [] }, q.map Event.wireSend)
  else (st, [])

/-- Embedding of `#createRPCMessage`: stamp a fresh id (`uuidv7()` becomes the
`nextUuid` counter), timestamp, and current generation unless the props carry
one; derive the lane from the route when the lane is falsy; strip a truthy
sequence number on the `sys` lane and assign the next per-lane sequence number
on every other lane; default the payload to an empty object. -/
def createRPCMessage (st : ClientState) (props : RPCMessage) (opts : SubOpts) :
    RPCMessage × ClientState :=
  let mid := st.nextUuid
  let st := { st with nextUuid := st.nextUuid + 1 }
  let m := { props with
    id := some mid
    ts := some st.clock
    gen := props.gen.orElse (fun _ => st.generation) }
  let m := if opts.origin.isSome then { m with origin := opts.origin } else m
  let m := if m.route.isSome && !(jsStrTruthy m.lane) then
      { m with lane := some (laneKey m.route opts.priority) } else m
  let m := if m.lane = none then { m with lane := some "noLaneSet" } else m
  let m := if m.lane = some "sys" && jsSeqTruthy m.seq then { m with seq := none } else m
  let p :=
    if jsStrTruthy m.lane && !(m.lane = some "sys") then
      let q := nextSeq st (m.lane.getD "")
      ({ m with seq := some q.1 }, q.2)
    else (m, st)
  let m := p.1
  let st := p.2
  let m := if !(jsTruthyOpt m.payload) then { m with payload := some (.obj []) } else m
  (m, st)

/-- Embedding of `#createACKMessage` at its call sites (no prop overrides). -/
def createACKMessage (st : ClientState) (toMsg : RPCMessage) : RPCMessage × ClientState :=
  createRPCMessage st
    { v := some "0.1", type := some "ack", lane := some "sys",
      correlatesTo := toMsg.id,
      budgetMs := some (st.settings.ackWaitMs.getD 250) } {}

/-- Embedding of `#createErrorMessage` at its call sites: all callers pass a
code, a message and `retryable:false`; the non-serializable `err` member is
not modelled. -/
def createErrorMessage (st : ClientState) (toMsg : RPCMessage) (code msgText : String) :
    RPCMessage × ClientState :=
  createRPCMessage st
    { v := some "0.1", type := some "error", lane := some "sys",
      correlatesTo := toMsg.id,
      payload := some (.obj
        [("code", .str code), ("message", .str msgText), ("retryable", .bool false)]) } {}

/-- Serialization of an options bag as the JS spread `{...opts}` produces it,
with absent members omitted (used for subscribe payloads). -/
def subOptsToJs (o : SubOpts) : JsValue :=
  .obj ((if o.noAck then [("noAck", JsValue.bool true)] else [])
    ++ (match o.priority with | some p => [("priority", JsValue.str p)] | none => [])
    ++ (match o.cls with | some c => [("class", JsValue.str c)] | none => [])
    ++ (match o.budgetMs with | some b => [("budgetMs", JsValue.num b)] | none => [])
    ++ (match o.idempotencyKey with | some k => [("idempotencyKey", JsValue.num k)] | none => []))

/-- Embedding of `#createSubscribeMessage`: default a falsy priority to `low`
(the source writes this back into the options object; the write-back is
idempotent and not modelled), put the options minus `origin` into the payload,
and tag the origin onto the message when present.  The `route` guard throw is
reflected by requiring a route argument. -/
def createSubscribeMessage (st : ClientState) (route : Route) (path op0 : Option String)
    (opts : SubOpts) : RPCMessage × ClientState :=
  let options := if jsStrTruthy opts.priority then opts else { opts with priority := some "low" }
  let optsNoOrigin := { options with origin := none }
  let p := createRPCMessage st
    { v := some "0.1", type := some "subscribe", route := some route, path := path, op := op0,
      budgetMs := some (pickBudgetMs st options),
      payload := some (subOptsToJs optsNoOrigin) } options
  let m := p.1
  let st := p.2
  let m := if options.origin.isSome then { m with origin := options.origin } else m
  (m, st)

/-- Embedding of `#createCancelMessage` (callers always pass a correlation
id, matching the guard throw in the source). -/
def createCancelMessage (st : ClientState) (correlatesTo : Option Nat) (opts : SubOpts) :
    RPCMessage × ClientState :=
  createRPCMessage st
    { v := some "0.1", type := some "cancel", lane := some "sys", correlatesTo := correlatesTo,
      budgetMs := some (st.settings.ackWaitMs.getD 250) } opts

/-- Embedding of `#createUnsubscribeMessage`. -/
def createUnsubscribeMessage (st : ClientState) (correlatesTo : Option Nat) (opts : SubOpts) :
    RPCMessage × ClientState :=
  createRPCMessage st
    { v := some "0.1", type := some "unsubscribe", lane := some "sys", correlatesTo := correlatesTo,
      budgetMs := some (st.settings.ackWaitMs.getD 250) } opts

/-- Embedding of `#createHelloMessage`: placeholder generation, `sys` lane. -/
def createHelloMessage (st : ClientState) : RPCMessage × ClientState :=
  createRPCMessage st
    { v := some "0.1", type := some "hello", lane := some "sys",
      budgetMs := some (st.settings.ackWaitMs.getD 250),
      gen := some { num := some (-1), salt := some "salt" } } {}

/-- Embedding of `#createHeartbeatMessage`. -/
def createHeartbeatMessage (st : ClientState) : RPCMessage × ClientState :=
  createRPCMessage st { v := some "0.1", type := some "heartbeat", lane := some "sys" } {}

/-- Embedding of `#createRequestMessage`: the caller op is overridden with
`call`, the budget resolved from options or the priority class, and the
idempotency key defaults to the fresh message id.  The abort-signal listener
is event-driven and outside the state machine. -/
def createRequestMessage (st : ClientState) (route : Route) (path _op0 : Option String)
    (args : Option JsValue) (payloadProp : Option JsValue) (opts : SubOpts) :
    RPCMessage × ClientState :=
  let p := createRPCMessage st
    { v := some "0.1", type := some "request", op := some "call", route := some route,
      path := path, args := args, payload := payloadProp,
      budgetMs := some (pickBudgetMs st opts) } opts
  let m := p.1
  let st := p.2
  ({ m with idempotencyKey := opts.idempotencyKey.orElse (fun _ => m.id) }, st)

/-- Embedding of `#shouldThrottle`: everything but the `sys` lane. -/
def shouldThrottle (m : RPCMessage) : Bool :=
  if m.lane = some "sys" then false else true

/-- Embedding of `#scheduleSend`.  The stored `sendFn` is the closure
`() => this.#enqueue(msg)` at every call site, so the lane queue stores bare
messages and draining re-enters `enqueue`. -/
def scheduleSend (st : ClientState) (m : RPCMessage) : ClientState × List Event :=
  let maxInFlight := st.settings.maxInFlightPerLane.getD 64
  let lane := match m.lane with
    | some l => if l = "" then "noLaneSet" else l
    | none => "noLaneSet"
  let p := getLaneState st lane
  let ls := p.1
  let st := p.2
  if !(shouldThrottle m) || ls.inFlight < maxInFlight then
    let st := if shouldThrottle m then
        { st with laneStates := alSet st.laneStates lane { ls with inFlight := ls.inFlight + 1 } }
      else st
    enqueue st m
  else
    let maxQueue := st.settings.maxQueue.getD 1024
    let q := if ls.queue.length ≥ maxQueue then ls.queue.drop 1 else ls.queue
    ({ st with laneStates := alSet st.laneStates lane { ls with queue := q ++ [m] } }, [])

/-- Embedding of `#onLaneDone`: decrement in-flight (clamped at zero exactly
like `Math.max(0, x-1)`) and drain at most one queued message when capacity
allows (the `while` loop breaks after its first iteration). -/
def onLaneDone (st : ClientState) (lane : String) : ClientState × List Event :=
  let p := getLaneState st lane
  let ls := p.1
  let st := p.2
  let inf := ls.inFlight - 1
  let maxInFlight := st.settings.maxInFlightPerLane.getD 64
  match ls.queue with
  | [] => ({ st with laneStates := alSet st.laneStates lane { ls with inFlight := inf } }, [])
  | q :: rest =>
      if inf < maxInFlight then
        let ls2 := { ls with inFlight := inf + 1, queue := rest }
        let st := { st with laneStates := alSet st.laneStates lane ls2 }
        enqueue st q
      else ({ st with laneStates := alSet st.laneStates lane { ls with inFlight := inf } }, [])

/-- Embedding of `#sendWithAck`: register an ack-waiting pending entry whose
completion releases the message lane, arm the ack timer, and schedule the
send. -/
def sendWithAck (st : ClientState) (m : RPCMessage) : ClientState × List Event :=
  let ackWait := st.settings.ackWaitMs.getD 250
  let key := m.id.getD 0
  let entry : PendingEntry := { wantAck := true, lane := m.lane.getD "noLaneSet" }
  let st := { st with pending := alSet st.pending key entry }
  let p := scheduleSend st m
  (p.1, Event.timerSet key ackWait :: p.2)

/-- Embedding of `#sendWithReply`: compute the reply deadline from the message
budget (or the priority class service TTL) plus the class patience, capped by
the configured hard timeout; register a reply-waiting pending entry and
schedule the send. -/
def sendWithReply (st : ClientState) (m : RPCMessage) (lane : String) (opts : SubOpts) :
    ClientState × List Event :=
  let classCfg := resolveClassCfg st opts
  let waitMs :=
    min ((m.budgetMs.getD classCfg.serviceTtlMs) + classCfg.clientPatienceExtraMs.getD 200)
      (st.settings.timeoutCapMs.getD 30000)
  let key := m.id.getD 0
  let st := { st with pending := alSet st.pending key { wantAck := false, lane := lane } }
  let p := scheduleSend st m
  (p.1, Event.timerSet key waitMs :: p.2)

/-- Embedding of the public `cancel` method: fire-and-forget a cancel frame. -/
def cancel (st : ClientState) (correlatesTo : Option Nat) (opts : SubOpts) :
    ClientState × List Event :=
  let p := createCancelMessage st correlatesTo opts
  enqueue p.2 p.1

/-- Embedding of the public `unsubscribe` method: fire-and-forget an
unsubscribe frame and immediately drop local bookkeeping. -/
def unsubscribe (st : ClientState) (subId : Nat) (opts : SubOpts) : ClientState × List Event :=
  let p := createUnsubscribeMessage st (some subId) opts
  let q := enqueue p.2 p.1
  ({ q.1 with subscriptions := alErase q.1.subscriptions subId }, q.2)

/-- Embedding of the `#sendWithReply` timer callback: drop the pending entry,
release the lane via the entry finalizer, send a best-effort cancel carrying
the original origin when present, and reject with `TIMEOUT`. -/
def replyTimeoutFire (st : ClientState) (m : RPCMessage) (lane : String) :
    ClientState × List Event :=
  let key := m.id.getD 0
  let st := { st with pending := alErase st.pending key }
  let p := onLaneDone st lane
  let q :=
    if m.origin.isSome then cancel p.1 m.id { origin := m.origin }
    else cancel p.1 m.id {}
  (q.1, p.2 ++ q.2 ++ [Event.rejectP key "TIMEOUT"])

/-- Embedding of the `#sendWithAck` timer callback. -/
def ackTimeoutFire (st : ClientState) (m : RPCMessage) : ClientState × List Event :=
  let key := m.id.getD 0
  let st := { st with pending := alErase st.pending key }
  let p := onLaneDone st (m.lane.getD "noLaneSet")
  (p.1, p.2 ++ [Event.rejectP key "NO_ACK"])

/-- Embedding of `#makeSub`: the subscription record with a mutable id. -/
def makeSub (id : Nat) (invocation : Invocation) (opts : SubOpts) : Subscription :=
  { sid := id, invocation := invocation, opts := opts }

/-- Embedding of the public `request` method. -/
def request (st : ClientState) (route : Route) (path op0 : Option String)
    (args : Option JsValue) (payloadProp : Option JsValue) (opts : SubOpts) :
    ClientState × List Event :=
  let p := createRequestMessage st route path op0 args payloadProp opts
  sendWithReply p.2 p.1 (p.1.lane.getD "noLaneSet") opts

/-- Embedding of the public `subscribe` method up to its first await: the
subscription object is registered before the frame is handed to the scheduler,
and the frame waits only for an ack. -/
def subscribe (st : ClientState) (route : Route) (path op0 : Option String) (opts : SubOpts) :
    ClientState × List Event :=
  let p := createSubscribeMessage st route path op0 opts
  let m := p.1
  let st := p.2
  let sub := makeSub (m.id.getD 0) { route := route, path := path, op := op0 } opts
  let st := { st with subscriptions := alSet st.subscriptions (m.id.getD 0) sub }
  sendWithAck st m

/-- Coalescing `a ?? d` on JSON values: null and undefined fall to the
default. -/
def jsCoalesce (o : Option JsValue) (d : JsValue) : JsValue :=
  match o with
  | none => d
  | some .null => d
  | some v => v

/-- The handler argument `msg.args || []`. -/
def jsArgsOf (o : Option JsValue) : JsValue :=
  match o with
  | some v => if jsTruthy v then v else .arr []
  | none => .arr []

/-- Condition text of `new Error(msg.payload?.message || "ERROR")`. -/
def errMsgOf (p : Option JsValue) : String :=
  match p with
  | some v =>
      match jsStrOf (jsFieldOpt v "message") with
      | some s => if s = "" then "ERROR" else s
      | none => "ERROR"
  | none => "ERROR"

/-- Embedding of `#setReady`: flip the flag and notify only on change. -/
def setReady (st : ClientState) (value : Bool) : ClientState × List Event :=
  if st.ready = value then (st, [])
  else ({ st with ready := value }, [Event.readyChange value])

/-- One iteration of the subscription-resume loop inside the `welcome`
handler: synthesize a fresh `subscribe` frame from the stored invocation and
options (`op` falls back to `none` via `??`), move the table entry from the
old id to the new id, update the handle id in place (modelled by storing the
same record with `sid` replaced), and send it ack-only. -/
def resumeOne (st : ClientState) (entry : Nat × Subscription) : ClientState × List Event :=
  let oldSubId := entry.1
  let sub := entry.2
  let p := createSubscribeMessage st sub.invocation.route sub.invocation.path
      (some (sub.invocation.op.getD "none")) sub.opts
  let newMsg := p.1
  let st := p.2
  let st := { st with subscriptions := alErase st.subscriptions oldSubId }
  let newKey := newMsg.id.getD 0
  let sub := { sub with sid := newKey }
  let st := { st with subscriptions := alSet st.subscriptions newKey sub }
  sendWithAck st newMsg

/-- The resume loop iterates over a snapshot of the subscription table taken
before any mutation (`[...this.subscriptions.entries()]`). -/
def resumeLoop (st : ClientState) : ClientState × List Event :=
  let snapshot := st.subscriptions
  snapshot.foldl (fun acc e =>
    let r := resumeOne acc.1 e
    (r.1, acc.2 ++ r.2)) (st, [])

/-- The `welcome` branch of `#onMessage`: adopt the frame generation, mark
ready, flush the offline queue, remember the welcome state snapshot, resume
every tracked subscription, and notify listeners.  Control then falls through
(the source branch does not return). -/
def welcomePhase (st : ClientState) (m : RPCMessage) : ClientState × List Event :=
  if m.type = some "welcome" then
    let st := { st with generation := m.gen }
    let p := setReady st true
    let q := flushQueue p.1
    let welcomeState := match m.payload with
      | some pl => jsFieldOpt pl "state"
      | none => none
    let st := { q.1 with lastWelcome := welcomeState }
    let r := resumeLoop st
    (r.1, p.2 ++ q.2 ++ r.2 ++ [Event.welcomeEmit])
  else (st, [])

/-- The stale-generation guard: drop when the frame carries a truthy
generation, one is currently held, and number or salt differ (strict JS
inequality on possibly-undefined members). -/
def staleDrop (st : ClientState) (m : RPCMessage) : Bool :=
  match m.gen, st.generation with
  | some g, some h => decide (g.num ≠ h.num ∨ g.salt ≠ h.salt)
  | _, _ => false

/-- Capability name carried by the frame route, when truthy. -/
def routeCapability (m : RPCMessage) : Option String :=
  m.route.bind (fun r => r.capability)

/-- The capability-dispatch branch of `#onMessage` for inbound
`request`/`emit`/`subscribe` frames addressed to a local capability.  Returns
the events plus whether the branch returned (`true`) or fell through to the
auto-ack (`false`: capability unregistered, or registered with a truthy
non-function handler slot).  Handler bodies run asynchronously and are
represented by dispatch events. -/
def capPhase (st : ClientState) (m : RPCMessage) : ClientState × List Event × Bool :=
  if (m.type = some "request" || m.type = some "emit" || m.type = some "subscribe")
      && jsStrTruthy (routeCapability m) then
    let capName := (routeCapability m).getD ""
    match alGet st.localCaps capName with
    | some cap =>
        let a := createACKMessage st m
        let e := enqueue a.2 a.1
        let st := e.1
        let evAck := e.2
        if m.type = some "request" && cap.call = HSlot.func then
          (st, evAck ++ [Event.invokeCall capName m.path (jsArgsOf m.args) m.id], true)
        else if m.type = some "emit" && cap.emit = HSlot.func then
          (st, evAck ++ [Event.invokeEmit capName m.path m.payload m.id], true)
        else if m.type = some "subscribe" && cap.subscribe = HSlot.func then
          (st, evAck ++ [Event.invokeSubscribe capName m.path (jsCoalesce m.payload (.obj [])) m.id], true)
        else if m.type = some "request" && cap.call = HSlot.missing then
          let er := createErrorMessage st m "FRONTEND_REQUEST_ERROR"
            ("Capability " ++ capName ++ " does not have call method")
          let f := enqueue er.2 er.1
          (f.1, evAck ++ f.2, true)
        else if m.type = some "emit" && cap.emit = HSlot.missing then
          let er := createErrorMessage st m "FRONTEND_EMIT_ERROR"
            ("Capability " ++ capName ++ " does not have emit method")
          let f := enqueue er.2 er.1
          (f.1, evAck ++ f.2, true)
        else if m.type = some "subscribe" && cap.subscribe = HSlot.missing then
          let er := createErrorMessage st m "FRONTEND_SUBSCRIBE_ERROR"
            ("Capability " ++ capName ++ " does not have subscribe method")
          let f := enqueue er.2 er.1
          (f.1, evAck ++ f.2, true)
        else (st, evAck, false)
    | none => (st, [], false)
  else (st, [], false)

/-- The auto-ack for every non-control inbound frame type. -/
def autoAckPhase (st : ClientState) (m : RPCMessage) : ClientState × List Event :=
  let excluded := match m.type with
    | some t => t = "ack" || t = "welcome" || t = "hello" || t = "heartbeat"
    | none => false
  if excluded then (st, [])
  else
    let a := createACKMessage st m
    enqueue a.2 a.1

/-- Correlation handling of `#onMessage`: replies and errors settle a pending
entry (clearing its timer and releasing its lane) or are forwarded to a
subscription sink; state updates go to subscription sinks; acks settle
ack-waiting pending entries; cancel and unsubscribe tear down a locally
tracked inbound subscription. -/
def typePhase (st : ClientState) (m : RPCMessage) : ClientState × List Event :=
  if m.type = some "reply" || m.type = some "error" then
    match m.correlatesTo, m.correlatesTo.bind (fun c => alGet st.pending c) with
    | some c, some entry =>
        let st := { st with pending := alErase st.pending c }
        let settleEv :=
          if m.type = some "error" then Event.rejectP c (errMsgOf m.payload)
          else Event.resolvePayload c m.payload
        let p := onLaneDone st entry.lane
        (p.1, [Event.timerCleared c, settleEv] ++ p.2)
    | some c, none =>
        match alGet st.subscriptions c with
        | some _sub =>
            if m.type = some "reply" then (st, [Event.subEmit c "reply" m.payload])
            else (st, [Event.subEmit c "error" m.payload])
        | none => (st, [])
    | none, _ => (st, [])
  else if m.type = some "stateUpdate" then
    match m.correlatesTo with
    | some c =>
        match alGet st.subscriptions c with
        | some _sub => (st, [Event.subEmit c "update" m.payload])
        | none => (st, [])
    | none => (st, [])
  else if m.type = some "ack" then
    match m.correlatesTo, m.correlatesTo.bind (fun c => alGet st.pending c) with
    | some c, some entry =>
        if entry.wantAck then
          let st := { st with pending := alErase st.pending c }
          let p := onLaneDone st entry.lane
          (p.1, [Event.timerCleared c, Event.resolveAck c] ++ p.2)
        else (st, [])
    | _, _ => (st, [])
  else if m.type = some "cancel" || m.type = some "unsubscribe" then
    match m.correlatesTo with
    | some c =>
        let cbEv := match alGet st.subscriptions c with
          | some sub => if sub.jsOnCancel then [Event.subCancelCb c] else []
          | none => []
        ({ st with subscriptions := alErase st.subscriptions c }, cbEv)
    | none => (st, [])
  else (st, [])

/-- Embedding of `#onMessage` on an already-structured frame, in source
order: welcome handling (falls through), stale-generation guard (early
return), capability dispatch (may return), auto-ack, correlation handling.
The stale check runs against the generation after the welcome branch, exactly
as in the source. -/
def onMessage (st : ClientState) (m : RPCMessage) : ClientState × List Event :=
  let w := welcomePhase st m
  let st1 := w.1
  if staleDrop st1 m then (st1, w.2)
  else
    let c := capPhase st1 m
    if c.2.2 then (c.1, w.2 ++ c.2.1)
    else
      let a := autoAckPhase c.1 m
      let t := typePhase a.1 m
      (t.1, w.2 ++ c.2.1 ++ a.2 ++ t.2)

/-- Read an optional integer field of a JSON value. -/
def jsIntOf : Option JsValue → Option Int
  | some (.num n) => some n
  | _ => none

/-- Generation carried by a frame: any truthy value counts as present, its
members read off when they exist (missing members model `undefined`). -/
def jsGenOf (o : Option JsValue) : Option Gen :=
  match o with
  | none => none
  | some j =>
      if jsTruthy j then
        some { num := jsIntOf (jsFieldOpt j "num"), salt := jsStrOf (jsFieldOpt j "salt") }
      else none

/-- Route carried by a frame (`msg.route?.capability` style access). -/
def jsRouteOf (o : Option JsValue) : Option Route :=
  match o with
  | none => none
  | some .null => none
  | some j =>
      some { capability := jsStrOf (jsFieldOpt j "capability")
             object := jsStrOf (jsFieldOpt j "object") }

/-- Field extraction performed by `#onMessage` on the parsed value.  The very
first access is `msg.type`, which throws a `TypeError` when the parse produced
`null`; every later access on a non-null value is safe and yields `undefined`
for missing fields. -/
def jsToRPCMessage (v : JsValue) : Except JsError RPCMessage := do
  let ty ← jsGet v "type"
  .ok { type := jsStrOf ty
        id := jsNatOf (jsFieldOpt v "id")
        correlatesTo := jsNatOf (jsFieldOpt v "correlatesTo")
        lane := jsStrOf (jsFieldOpt v "lane")
        gen := jsGenOf (jsFieldOpt v "gen")
        route := jsRouteOf (jsFieldOpt v "route")
        op := jsStrOf (jsFieldOpt v "op")
        path := jsStrOf (jsFieldOpt v "path")
        args := jsFieldOpt v "args"
        seq := jsNatOf (jsFieldOpt v "seq")
        origin := jsStrOf (jsFieldOpt v "origin")
        budgetMs := jsNatOf (jsFieldOpt v "budgetMs")
        payload := jsFieldOpt v "payload" }

/-- Embedding of `#onMessage` from the raw socket text: `JSON.parse` failures
are caught, logged and dropped inside the handler (the connection stays up),
the activity clock is bumped, and any exception thrown by the later field
accesses propagates out of the handler (it is not caught). -/
def onMessageRaw (st : ClientState) (raw : String) : Except JsError (ClientState × List Event) :=
  match jsonParse raw with
  | none => .ok (st, [Event.logParseError])
  | some v =>
      let st := { st with lastSeen := st.clock }
      match jsToRPCMessage v with
      | .error e => .error e
      | .ok m => .ok (onMessage st m)

/-- Embedding of `#stopHeartbeat`. -/
def stopHeartbeat (st : ClientState) : ClientState :=
  { st with heartbeatTimer := none, awolTimer := none }

/-- Embedding of `#onClose`: drop readiness, stop heartbeats, reject every
pending entry with `DISCONNECTED` (clearing its timer and running its lane
finalizer), clear the pending table, keep subscriptions for later resumption,
and schedule a reconnect with exponential backoff (the random jitter term is
not modelled; the event carries the base delay). -/
def onClose (st : ClientState) : ClientState × List Event :=
  let p := setReady st false
  let st := { p.1 with connected := false, socketOpen := false }
  let st := stopHeartbeat st
  let q := st.pending.foldl (fun acc e =>
      let r := onLaneDone acc.1 e.2.lane
      (r.1, acc.2 ++ [Event.timerCleared e.1, Event.rejectP e.1 "DISCONNECTED"] ++ r.2))
    (st, [])
  let st := { q.1 with pending := [] }
  let attempt := st.reconnectAttempts + 1
  let st := { st with reconnectAttempts := attempt }
  let delayBase := min 3000 (250 * 2 ^ (attempt - 1))
  (st, p.2 ++ q.2 ++ [Event.reconnectScheduled attempt delayBase])

/-- Embedding of `#connectOnce` (successful open): mark the socket open,
reset the attempt counter, and send `hello`. -/
def connectOnce (st : ClientState) : ClientState × List Event :=
  let st := { st with socketOpen := true, connected := true, reconnectAttempts := 0 }
  let p := createHelloMessage st
  sendRaw p.2 p.1

/-- Embedding of `#startHeartbeat`.  Defined because the source defines it,
but the only call site (`this.#startHeartbeat()` inside `#open`) is commented
out in the source, so no reachable transition invokes it. -/
def startHeartbeat (st : ClientState) : ClientState :=
  let period := max 1000 (st.settings.heartbeatMs.getD 5000)
  let st := stopHeartbeat st
  { st with heartbeatTimer := some period, awolTimer := some (max (period * 3) 10000) }

/-- Embedding of `#open` as written: connect, then flush the offline queue.
The heartbeat start between the two is commented out in the source. -/
def openClient (st : ClientState) : ClientState × List Event :=
  let p := connectOnce st
  let q := flushQueue p.1
  (q.1, p.2 ++ q.2)

/-- Embedding of `#tickHeartbeat`: while open, send a heartbeat frame and
close the socket when inbound silence exceeds three heartbeat intervals.
No call site exists anywhere in the source. -/
def tickHeartbeat (st : ClientState) : ClientState × List Event :=
  if st.socketOpen then
    let p := createHeartbeatMessage st
    let q := sendRaw p.2 p.1
    let awolMs := st.hbIntervalMs * 3
    if st.clock - st.lastSeen > awolMs then (q.1, q.2 ++ [Event.closeSocket])
    else (q.1, q.2)
  else (st, [])

/-- The frame transmitted by a send-ish event, if any. -/
def sendsFrame : Event → Option RPCMessage
  | .wireSend m => some m
  | .offlineQueued m => some m
  | _ => none

/-- Checks whether an event transmits an `error` frame. -/
def isErrorFrameSend (e : Event) : Bool :=
  match sendsFrame e with
  | some m => m.type == some "error"
  | none => false

/-- Checks whether an event transmits an `error` frame correlated to `c`. -/
def isErrorFrameSendTo (c : Option Nat) (e : Event) : Bool :=
  match sendsFrame e with
  | some m => m.type == some "error" && m.correlatesTo == c
  | none => false

/-- Checks whether an event transmits an `ack` frame correlated to `c`. -/
def isAckFrameSendTo (c : Option Nat) (e : Event) : Bool :=
  match sendsFrame e with
  | some m => m.type == some "ack" && m.correlatesTo == c
  | none => false

/-- Checks whether an event transmits a `heartbeat` frame. -/
def isHeartbeatSend (e : Event) : Bool :=
  match sendsFrame e with
  | some m => m.type == some "heartbeat"
  | none => false

/-- Checks whether an event transmits a `subscribe` frame. -/
def isSubscribeSend (e : Event) : Bool :=
  match sendsFrame e with
  | some m => m.type == some "subscribe"
  | none => false

/-- Checks whether an event settles a caller-visible promise or subscription
sink. -/
def isSettleEvent : Event → Bool
  | .resolveAck _ => true
  | .resolvePayload _ _ => true
  | .rejectP _ _ => true
  | .subEmit _ _ _ => true
  | _ => false

/-- Checks for the rejection of pending id `k` with `DISCONNECTED`. -/
def isDisconnectReject (k : Nat) : Event → Bool
  | .rejectP k2 cond => k2 == k && cond == "DISCONNECTED"
  | _ => false

/-- Handler slot a frame type dispatches to. -/
def slotFor (h : CapHandlers) (ty : Option String) : HSlot :=
  if ty = some "request" then h.call
  else if ty = some "emit" then h.emit
  else h.subscribe

/-- Checks that a decode outcome is a processed-and-acked frame (used for the
non-object decode counterexample). -/
def acksNonObject (r : Except JsError (ClientState × List Event)) : Bool :=
  match r with
  | .ok (_, [Event.wireSend am]) => am.type == some "ack" && am.correlatesTo == none
  | _ => false

/-- Concrete connected client used to instantiate theorems. -/
def wState : ClientState :=
  { settings := defaultSettings
    socketOpen := true
    connected := true
    ready := true
    generation := some { num := some 3, salt := some "s1" }
    nextUuid := 100
    clock := 5000 }

/-- Concrete reply frame with a stale generation (older epoch number). -/
def staleMsg : RPCMessage :=
  { type := some "reply"
    correlatesTo := some 7
    gen := some { num := some 2, salt := some "s1" } }

/-- Concrete inbound request addressed to the (unregistered) capability
`echo`. -/
def capReqMsg : RPCMessage :=
  { type := some "request"
    id := some 40
    route := some { capability := some "echo" }
    path := some "p" }

/-- Client with a capability registered whose `call` slot is absent. -/
def wStateCap : ClientState :=
  { wState with localCaps := [("echo", { emit := HSlot.func })] }

/-- Freshly constructed client (constructor field values) before `#open`. -/
def freshClient : ClientState :=
  { settings := defaultSettings, hbIntervalMs := 5000 }

/-- Lane record saturated at the default in-flight cap. -/
def lsSlow : LaneState := { nextSeq := 65, inFlight := 64 }

/-- Client whose `cap:slow` lane is saturated at the default in-flight cap. -/
def wStateFull : ClientState :=
  { wState with laneStates := [("cap:slow", lsSlow)] }

/-- Concrete request frame on the saturated lane. -/
def capSlowMsg : RPCMessage :=
  { type := some "request", id := some 70, lane := some "cap:slow" }

/-- Concrete pending entries and client used to exercise the disconnect
path. -/
def pendA : PendingEntry := { wantAck := false, lane := "cap:a" }

/-- Second concrete pending entry on the same lane. -/
def pendB : PendingEntry := { wantAck := true, lane := "cap:a" }

/-- Client with two pending entries awaiting replies on lane `cap:a`. -/
def wStatePend : ClientState :=
  { wState with
    pending := [(10, pendA), (11, pendB)]
    laneStates := [("cap:a", { nextSeq := 3, inFlight := 2 })] }

/-- Position-indexed enumeration starting at `i`, used to describe the fresh
message ids drawn by the subscription-resume loop. -/
def enumIdx {α : Type} : Nat → List α → List (Nat × α)
  | _, [] => []
  | i, a :: rest => (i, a) :: enumIdx (i + 1) rest

/-- The options bag as the resume path serializes it into the subscribe
payload: priority defaulted to `low` when falsy, origin stripped. -/
def resumeOpts (o : SubOpts) : SubOpts :=
  { (if jsStrTruthy o.priority then o else { o with priority := some "low" }) with
    origin := none }

/-- Concrete subscription handle on capability `echo`. -/
def subEcho : Subscription :=
  { sid := 5, invocation := { route := { capability := some "echo" } } }

/-- Concrete subscription handle on object `log` with explicit options. -/
def subLog : Subscription :=
  { sid := 6
    invocation := { route := { object := some "log" }, path := some "x", op := some "watch" }
    opts := { priority := some "high" } }

/-- Client tracking two subscriptions across a reconnect. -/
def wStateSubs : ClientState :=
  { wState with subscriptions := [(5, subEcho), (6, subLog)] }

/-- Concrete welcome frame of a new server generation. -/
def wcMsg : RPCMessage :=
  { type := some "welcome", gen := some { num := some 4, salt := some "s2" } }

/-- Concrete request frame (as `#createRequestMessage` would shape it) used
to exercise the reply-wait timeout path. -/
def reqMsg6 : RPCMessage :=
  { type := some "request"
    id := some 50
    lane := some "cap:echo"
    budgetMs := some 700
    origin := some "mod1" }

/-- Concrete reply frame whose correlation id matches nothing. -/
def lateReplyMsg : RPCMessage :=
  { type := some "reply"
    id := some 41
    correlatesTo := some 7 }

/-- Concrete ack frame whose correlation id matches nothing. -/
def lateAckMsg : RPCMessage :=
  { type := some "ack"
    id := some 42
    correlatesTo := some 7 }

/-- Helper: `enqueue` emits only transmission events for the given frame
(plus possibly one drop of the oldest offline entry). -/
theorem enqueue_events_eq (st : ClientState) (m : RPCMessage) :
    (enqueue st m).2 =
      (if st.socketOpen = true then [Event.wireSend m]
       else if st.offlineQueue.length ≥ st.settings.maxOfflineQueue.getD 2000 then
         (match st.offlineQueue with
          | [] => [Event.offlineQueued m]
          | d :: _ => [Event.offlineDropped d, Event.offlineQueued m])
       else [Event.offlineQueued m]) := by
  unfold enqueue sendRaw
  dsimp only
  split_ifs <;> first
    | rfl
    | (cases hq : st.offlineQueue <;> simp [hq])

/-- Helper: `enqueue` emits only transmission events for the given frame
(plus possibly one drop of the oldest offline entry). -/
theorem enqueue_events_shape (st : ClientState) (m : RPCMessage) :
    ∀ e ∈ (enqueue st m).2,
      e = Event.wireSend m ∨ e = Event.offlineQueued m ∨ ∃ d, e = Event.offlineDropped d := by
  intro e he
  rw [enqueue_events_eq] at he
  split_ifs at he
  · simp at he; simp [he]
  · cases hq : st.offlineQueue <;> simp [hq] at he <;> aesop
  · simp at he; simp [he]

/-- Helper: `enqueue` always emits at least one transmission of the frame. -/
theorem enqueue_sends (st : ClientState) (m : RPCMessage) :
    ∃ e ∈ (enqueue st m).2, sendsFrame e = some m := by
  have hev := enqueue_events_eq st m
  by_cases hso : st.socketOpen = true
  · refine ⟨Event.wireSend m, ?_, rfl⟩
    rw [hev]; simp [hso]
  · refine ⟨Event.offlineQueued m, ?_, rfl⟩
    rw [hev, if_neg hso]
    split_ifs with h
    · cases hq : st.offlineQueue <;> simp [hq]
    · simp

/-- Helper: `enqueue` touches only the offline queue. -/
theorem enqueue_tables (st : ClientState) (m : RPCMessage) :
    (enqueue st m).1.pending = st.pending ∧
    (enqueue st m).1.subscriptions = st.subscriptions ∧
    (enqueue st m).1.laneStates = st.laneStates := by
  unfold enqueue sendRaw
  repeat' split
  all_goals try exact ⟨rfl, rfl, rfl⟩
  all_goals dsimp only
  all_goals split_ifs <;> exact ⟨rfl, rfl, rfl⟩

/-- Helper: an ack frame has type `ack`. -/
theorem createACKMessage_type (st : ClientState) (m : RPCMessage) :
    (createACKMessage st m).1.type = some "ack" := rfl

/-- Helper: an ack frame correlates to the acknowledged frame. -/
theorem createACKMessage_corr (st : ClientState) (m : RPCMessage) :
    (createACKMessage st m).1.correlatesTo = m.id := rfl

/-- Helper: building an ack only consumes a fresh id. -/
theorem createACKMessage_state (st : ClientState) (m : RPCMessage) :
    (createACKMessage st m).2 = { st with nextUuid := st.nextUuid + 1 } := rfl

/-- Helper: an error frame has type `error`. -/
theorem createErrorMessage_type (st : ClientState) (m : RPCMessage) (code msgText : String) :
    (createErrorMessage st m code msgText).1.type = some "error" := rfl

/-- Helper: an error frame correlates to the offending frame. -/
theorem createErrorMessage_corr (st : ClientState) (m : RPCMessage) (code msgText : String) :
    (createErrorMessage st m code msgText).1.correlatesTo = m.id := rfl

/-- Helper: building an error frame only consumes a fresh id. -/
theorem createErrorMessage_state (st : ClientState) (m : RPCMessage) (code msgText : String) :
    (createErrorMessage st m code msgText).2 = { st with nextUuid := st.nextUuid + 1 } := rfl

/-- Helper: updating in place preserves lookup of the updated key. -/
theorem alGet_map_set {κ α : Type} [DecidableEq κ] (l : List (κ × α)) (k : κ) (v : α)
    (h : (alGet l k).isSome) :
    alGet (l.map fun p => if p.1 = k then (k, v) else p) k = some v := by
  induction l with
  | nil => simp [alGet] at h
  | cons a rest ih =>
      obtain ⟨a1, a2⟩ := a
      rw [List.map_cons]
      show alGet ((if a1 = k then (k, v) else (a1, a2))
        :: List.map (fun p => if p.1 = k then (k, v) else p) rest) k = some v
      by_cases hak : a1 = k
      · rw [if_pos hak]
        simp [alGet]
      · rw [if_neg hak]
        have h2 : (alGet rest k).isSome = true := by simpa [alGet, hak] using h
        simp [alGet, hak, ih h2]

/-- Helper: lookup skips over a prefix that does not contain the key. -/
theorem alGet_append_of_none {κ α : Type} [DecidableEq κ] (l : List (κ × α)) (k : κ)
    (h : alGet l k = none) (tail : List (κ × α)) :
    alGet (l ++ tail) k = alGet tail k := by
  induction l with
  | nil => rfl
  | cons a rest ih =>
      obtain ⟨a1, a2⟩ := a
      by_cases hak : a1 = k
      · simp [alGet, hak] at h
      · simp only [alGet, hak, if_false] at h
        simp [alGet, hak, ih h]

/-- Helper: `Map.set` makes the key map to the new value. -/
theorem alGet_alSet_self {κ α : Type} [DecidableEq κ] (l : List (κ × α)) (k : κ) (v : α) :
    alGet (alSet l k v) k = some v := by
  unfold alSet
  split_ifs with h
  · exact alGet_map_set l k v h
  · rw [alGet_append_of_none l k (by cases hv : alGet l k <;> simp_all)]
    simp [alGet]

/-- Helper: updating one key in place leaves every other key unchanged. -/
theorem alGet_map_set_ne {κ α : Type} [DecidableEq κ] (l : List (κ × α)) (k k2 : κ) (v : α)
    (h : k2 ≠ k) :
    alGet (l.map fun p => if p.1 = k then (k, v) else p) k2 = alGet l k2 := by
  induction l with
  | nil => rfl
  | cons a rest ih =>
      obtain ⟨a1, a2⟩ := a
      rw [List.map_cons]
      show alGet ((if a1 = k then (k, v) else (a1, a2))
          :: List.map (fun p => if p.1 = k then (k, v) else p) rest) k2
        = alGet ((a1, a2) :: rest) k2
      by_cases hak : a1 = k
      · rw [if_pos hak]
        subst hak
        simp [alGet, Ne.symm h, ih]
      · rw [if_neg hak]
        by_cases hk2 : a1 = k2 <;> simp [alGet, hak, hk2, ih]

/-- Helper: lookup distributes over append. -/
theorem alGet_append {κ α : Type} [DecidableEq κ] (l tail : List (κ × α)) (k2 : κ) :
    alGet (l ++ tail) k2 =
      (match alGet l k2 with
       | some v => some v
       | none => alGet tail k2) := by
  induction l with
  | nil => simp [alGet]
  | cons a rest ih =>
      obtain ⟨a1, a2⟩ := a
      by_cases hak : a1 = k2 <;> simp [alGet, hak, ih]

/-- Helper: `Map.set` does not change other keys. -/
theorem alGet_alSet_ne {κ α : Type} [DecidableEq κ] (l : List (κ × α)) (k k2 : κ) (v : α)
    (h : k2 ≠ k) : alGet (alSet l k v) k2 = alGet l k2 := by
  unfold alSet
  split_ifs with hs
  · exact alGet_map_set_ne l k k2 v h
  · rw [alGet_append]
    cases hv : alGet l k2 <;> simp [alGet, Ne.symm h]

/-- Helper: `#onLaneDone` never touches the pending or subscription tables. -/
theorem onLaneDone_tables (st : ClientState) (lane : String) :
    (onLaneDone st lane).1.pending = st.pending ∧
    (onLaneDone st lane).1.subscriptions = st.subscriptions := by
  unfold onLaneDone getLaneState
  cases halg : alGet st.laneStates lane with
  | none =>
      simp [halg]
  | some ls =>
      simp only [halg]
      try dsimp only
      cases hq : ls.queue with
      | nil => simp [hq]
      | cons q rest =>
          simp only [hq]
          try dsimp only
          split_ifs with hcap
          · refine ⟨?_, ?_⟩
            · rw [(enqueue_tables _ _).1]
            · rw [(enqueue_tables _ _).2.1]
          · exact ⟨rfl, rfl⟩

/-- Helper: completing a send on a lane with an empty queue decrements its
in-flight counter and emits nothing. -/
theorem onLaneDone_empty_queue (st : ClientState) (lane : String) (ls : LaneState)
    (h : alGet st.laneStates lane = some ls) (hq : ls.queue = []) :
    (onLaneDone st lane).1.laneStates
        = alSet st.laneStates lane { ls with inFlight := ls.inFlight - 1 } ∧
    (onLaneDone st lane).2 = [] := by
  unfold onLaneDone getLaneState
  simp [h, hq]

/-- Helper: on a non-welcome, non-stale frame, `#onMessage` is the capability
phase, then (unless it returned) auto-ack and correlation handling. -/
theorem onMessage_nonwelcome (st : ClientState) (m : RPCMessage)
    (hty : m.type ≠ some "welcome") (hdrop : staleDrop st m = false) :
    onMessage st m =
      (if (capPhase st m).2.2 then ((capPhase st m).1, (capPhase st m).2.1)
       else ((typePhase (autoAckPhase (capPhase st m).1 m).1 m).1,
             (capPhase st m).2.1 ++ (autoAckPhase (capPhase st m).1 m).2
               ++ (typePhase (autoAckPhase (capPhase st m).1 m).1 m).2)) := by
  unfold onMessage welcomePhase
  simp [hty, hdrop]

/-- Helper: the capability phase ignores frames of other types. -/
theorem capPhase_wrongType (st : ClientState) (m : RPCMessage)
    (h1 : m.type ≠ some "request") (h2 : m.type ≠ some "emit")
    (h3 : m.type ≠ some "subscribe") :
    capPhase st m = (st, [], false) := by
  unfold capPhase
  simp [h1, h2, h3]

/-- Helper: the capability phase falls through without any effect when the
capability is not registered. -/
theorem capPhase_unregistered (st : ClientState) (m : RPCMessage) (capName : String)
    (hroute : routeCapability m = some capName)
    (hlookup : alGet st.localCaps capName = none) :
    capPhase st m = (st, [], false) := by
  unfold capPhase
  simp [hroute, hlookup]

/-- Helper: the auto-ack phase acks every non-excluded frame type. -/
theorem autoAckPhase_acks (st : ClientState) (m : RPCMessage) (t : String)
    (hty : m.type = some t)
    (h : (t = "ack" || t = "welcome" || t = "hello" || t = "heartbeat") = false) :
    autoAckPhase st m = enqueue (createACKMessage st m).2 (createACKMessage st m).1 := by
  unfold autoAckPhase
  simp [hty, h]

/-- Helper: the auto-ack phase skips control frame types. -/
theorem autoAckPhase_excluded (st : ClientState) (m : RPCMessage) (t : String)
    (hty : m.type = some t)
    (h : (t = "ack" || t = "welcome" || t = "hello" || t = "heartbeat") = true) :
    autoAckPhase st m = (st, []) := by
  unfold autoAckPhase
  simp [hty, h]

/-- Helper: the correlation phase ignores frame types it does not handle. -/
theorem typePhase_other (st : ClientState) (m : RPCMessage)
    (h1 : m.type ≠ some "reply") (h2 : m.type ≠ some "error")
    (h3 : m.type ≠ some "stateUpdate") (h4 : m.type ≠ some "ack")
    (h5 : m.type ≠ some "cancel") (h6 : m.type ≠ some "unsubscribe") :
    typePhase st m = (st, []) := by
  unfold typePhase
  simp [h1, h2, h3, h4, h5, h6]

/-- Helper: a reply or error whose correlation id matches nothing is
ignored by the correlation phase. -/
theorem typePhase_replyError_unmatched (st : ClientState) (m : RPCMessage) (c : Nat)
    (hty : m.type = some "reply" ∨ m.type = some "error")
    (hc : m.correlatesTo = some c)
    (hp : alGet st.pending c = none)
    (hs : alGet st.subscriptions c = none) :
    typePhase st m = (st, []) := by
  unfold typePhase
  rcases hty with hty | hty <;> simp [hty, hc, hp, hs]

/-- Helper: an ack whose correlation id matches nothing is ignored. -/
theorem typePhase_ack_unmatched (st : ClientState) (m : RPCMessage) (c : Nat)
    (hty : m.type = some "ack") (hc : m.correlatesTo = some c)
    (hp : alGet st.pending c = none) :
    typePhase st m = (st, []) := by
  unfold typePhase
  simp [hty, hc, hp]

/-- Claim C5: an inbound frame other than `welcome` that carries a generation
differing (in number or salt) from the currently held generation is processed
as a complete no-op: the state is unchanged (so no capability handler runs and
the pending, subscription and lane tables are untouched) and no event — in
particular no ack — is emitted. -/
theorem c5_stale_generation_noop (st : ClientState) (m : RPCMessage)
    (hty : m.type ≠ some "welcome") (hdrop : staleDrop st m = true) :
    onMessage st m = (st, []) := by
  unfold onMessage welcomePhase
  simp [hty, hdrop]

/-- Witness for C5 on a concrete state and stale reply frame. -/
theorem c5_stale_generation_noop_witness :
    onMessage wState staleMsg = (wState, []) :=
  c5_stale_generation_noop wState staleMsg (by decide) (by rfl)

/-- Claim C7 (code bug): opening a connection installs no heartbeat timer at
all — the `#startHeartbeat()` call in `#open` is commented out and
`#tickHeartbeat` has no caller — so no heartbeat frame is ever emitted
periodically and the three-interval silence close never runs. -/
theorem c7_open_never_starts_heartbeat :
    (∀ st : ClientState, (openClient st).1.heartbeatTimer = st.heartbeatTimer ∧
        (openClient st).1.awolTimer = st.awolTimer) ∧
    (openClient freshClient).1.heartbeatTimer = none ∧
    (openClient freshClient).1.awolTimer = none ∧
    (openClient freshClient).2.filter isHeartbeatSend = [] := by
  refine ⟨fun st => ⟨rfl, rfl⟩, by rfl, by rfl, by rfl⟩

/-- Claim C9 counterexample: the wire input `null` parses successfully and the
subsequent `msg.type` access throws a `TypeError` out of the message handler,
refuting the claim that decoding never throws into the message loop. -/
theorem c9_decode_throws_counterexample :
    onMessageRaw wState "null" = Except.error JsError.typeError := by rfl

/-- Claim C9 (amended): malformed (non-JSON) input is caught, logged and
dropped with the state unchanged; but an input that parses to a non-object
JSON value is not rejected: `null` throws a `TypeError` out of the handler,
a number such as `42` is processed and auto-acked, and `normalizeMessage`
returns a non-object parse result as-is instead of rejecting it. -/
theorem c9_decode_amended :
    (∀ (st : ClientState) (raw : String), jsonParse raw = none →
        onMessageRaw st raw = .ok (st, [Event.logParseError])) ∧
    (onMessageRaw wState "null" = Except.error JsError.typeError) ∧
    (acksNonObject (onMessageRaw wState "42") = true) ∧
    (normalizeMessage (.strIn "42") = some (.num 42)) := by
  refine ⟨fun st raw h => ?_, by rfl, by rfl, by rfl⟩
  unfold onMessageRaw
  simp [h]

/-- Witness for C9 (amended) on a concrete malformed input. -/
theorem c9_decode_amended_witness :
    onMessageRaw wState "notjson" = .ok (wState, [Event.logParseError]) :=
  c9_decode_amended.1 wState "notjson" (by rfl)

/-- Claim C1 counterexample: an inbound request addressed to the unregistered
capability `echo` produces no error frame at all — it is only auto-acked — so
the claim that an unregistered capability is answered with a structured error
frame fails on this input. -/
theorem c1_unregistered_no_error_counterexample :
    alGet wState.localCaps "echo" = none ∧
    (onMessage wState capReqMsg).2.filter isErrorFrameSend = [] ∧
    ((onMessage wState capReqMsg).2.filter (isAckFrameSendTo (some 40))).length = 1 :=
  ⟨rfl, by rfl, by rfl⟩

/-- Claim C1 (amended): for an inbound request, emit, or subscribe frame whose
route carries a truthy capability name, if the capability is registered but
its handler slot for the requested kind is absent, the engine sends an error
frame correlated to the inbound id; if the capability is not registered at
all, the frame is acknowledged but no error frame is sent — the remote caller
is left to its own timeout. -/
theorem c1_cap_dispatch_amended (st : ClientState) (m : RPCMessage) (capName : String)
    (hroute : routeCapability m = some capName) (hname : capName ≠ "")
    (hkind : m.type = some "request" ∨ m.type = some "emit" ∨ m.type = some "subscribe")
    (hgen : staleDrop st m = false) :
    (alGet st.localCaps capName = none →
        (onMessage st m).2.filter isErrorFrameSend = [] ∧
        ∃ e ∈ (onMessage st m).2, isAckFrameSendTo m.id e = true) ∧
    (∀ h, alGet st.localCaps capName = some h → slotFor h m.type = HSlot.missing →
        ∃ e ∈ (onMessage st m).2, isErrorFrameSendTo m.id e = true) := by
  have hnw : m.type ≠ some "welcome" := by
    rcases hkind with h | h | h <;> simp [h]
  have hcapT : jsStrTruthy (some capName) = true := by
    simp [jsStrTruthy, hname]
  constructor
  · intro hlookup
    rw [onMessage_nonwelcome st m hnw hgen,
        capPhase_unregistered st m capName hroute hlookup]
    rcases hkind with hty | hty | hty <;>
    · rw [if_neg (by simp)]
      rw [autoAckPhase_acks _ m _ hty (by decide)]
      rw [typePhase_other _ m (by simp [hty]) (by simp [hty]) (by simp [hty])
            (by simp [hty]) (by simp [hty]) (by simp [hty])]
      simp only [List.nil_append, List.append_nil]
      constructor
      · refine List.filter_eq_nil_iff.mpr ?_
        intro e he
        rcases enqueue_events_shape _ _ e he with h | h | ⟨d, h⟩ <;> subst h <;>
          simp [isErrorFrameSend, sendsFrame, createACKMessage_type]
      · obtain ⟨e, hmem, hsf⟩ := enqueue_sends (createACKMessage st m).2 (createACKMessage st m).1
        refine ⟨e, hmem, ?_⟩
        unfold isAckFrameSendTo
        rw [hsf]
        simp [createACKMessage_type, createACKMessage_corr]
  · intro h hlookup hslot
    rw [onMessage_nonwelcome st m hnw hgen]
    rcases hkind with hty | hty | hty
    · have hcall : h.call = HSlot.missing := by simpa [slotFor, hty] using hslot
      unfold capPhase
      simp [hty, hroute, hcapT, hlookup, hcall]
      obtain ⟨e, hmem, hsf⟩ := enqueue_sends _ _
      refine ⟨e, Or.inr hmem, ?_⟩
      unfold isErrorFrameSendTo
      rw [hsf]
      simp [createErrorMessage_type, createErrorMessage_corr]
    · have hcall : h.emit = HSlot.missing := by simpa [slotFor, hty] using hslot
      unfold capPhase
      simp [hty, hroute, hcapT, hlookup, hcall]
      obtain ⟨e, hmem, hsf⟩ := enqueue_sends _ _
      refine ⟨e, Or.inr hmem, ?_⟩
      unfold isErrorFrameSendTo
      rw [hsf]
      simp [createErrorMessage_type, createErrorMessage_corr]
    · have hcall : h.subscribe = HSlot.missing := by simpa [slotFor, hty] using hslot
      unfold capPhase
      simp [hty, hroute, hcapT, hlookup, hcall]
      obtain ⟨e, hmem, hsf⟩ := enqueue_sends _ _
      refine ⟨e, Or.inr hmem, ?_⟩
      unfold isErrorFrameSendTo
      rw [hsf]
      simp [createErrorMessage_type, createErrorMessage_corr]

/-- Witness for C1 (amended): with `echo` registered without a `call`
handler an inbound request is answered with an error frame; with `echo`
unregistered the same request produces no error frame, only an ack. -/
theorem c1_cap_dispatch_amended_witness :
    (∃ e ∈ (onMessage wStateCap capReqMsg).2, isErrorFrameSendTo (some 40) e = true) ∧
    ((onMessage wState capReqMsg).2.filter isErrorFrameSend = [] ∧
      ∃ e ∈ (onMessage wState capReqMsg).2, isAckFrameSendTo (some 40) e = true) := by
  constructor
  · have h := c1_cap_dispatch_amended wStateCap capReqMsg "echo" rfl (by decide)
      (Or.inl rfl) (by rfl)
    exact h.2 _ rfl rfl
  · have h := c1_cap_dispatch_amended wState capReqMsg "echo" rfl (by decide)
      (Or.inl rfl) (by rfl)
    exact h.1 rfl

/-- Claim C10: an inbound reply, error, or ack frame whose correlation id
matches no pending entry and no tracked subscription settles nothing and
leaves the pending, subscription, and lane tables unchanged; a late reply or
error is still answered with an ack, while a late ack produces no outbound
traffic at all. -/
theorem c10_unmatched_correlation (st : ClientState) (m : RPCMessage) (c : Nat)
    (hc : m.correlatesTo = some c)
    (hp : alGet st.pending c = none)
    (hs : alGet st.subscriptions c = none)
    (hgen : staleDrop st m = false) :
    ((m.type = some "reply" ∨ m.type = some "error") →
        (onMessage st m).1.pending = st.pending ∧
        (onMessage st m).1.subscriptions = st.subscriptions ∧
        (onMessage st m).1.laneStates = st.laneStates ∧
        (onMessage st m).2.filter isSettleEvent = [] ∧
        ∃ e ∈ (onMessage st m).2, isAckFrameSendTo m.id e = true) ∧
    (m.type = some "ack" → onMessage st m = (st, [])) := by
  constructor
  · intro hre
    have hnw : m.type ≠ some "welcome" := by rcases hre with h | h <;> simp [h]
    rw [onMessage_nonwelcome st m hnw hgen]
    have hcp : capPhase st m = (st, [], false) := by
      rcases hre with h | h <;>
        exact capPhase_wrongType st m (by simp [h]) (by simp [h]) (by simp [h])
    rw [hcp, if_neg (by simp)]
    dsimp only
    have haa : autoAckPhase st m = enqueue (createACKMessage st m).2 (createACKMessage st m).1 := by
      rcases hre with h | h <;> exact autoAckPhase_acks st m _ h (by decide)
    rw [haa]
    have hp1 : alGet (enqueue (createACKMessage st m).2 (createACKMessage st m).1).1.pending c
        = none := by
      rw [(enqueue_tables _ _).1]; exact hp
    have hs1 : alGet (enqueue (createACKMessage st m).2 (createACKMessage st m).1).1.subscriptions c
        = none := by
      rw [(enqueue_tables _ _).2.1]; exact hs
    rw [typePhase_replyError_unmatched _ m c hre hc hp1 hs1]
    dsimp only
    refine ⟨?_, ?_, ?_, ?_, ?_⟩
    · exact (enqueue_tables _ _).1
    · exact (enqueue_tables _ _).2.1
    · exact (enqueue_tables _ _).2.2
    · simp only [List.nil_append, List.append_nil]
      refine List.filter_eq_nil_iff.mpr ?_
      intro e he
      rcases enqueue_events_shape _ _ e he with h | h | ⟨d, h⟩ <;> subst h <;>
        simp [isSettleEvent]
    · simp only [List.nil_append, List.append_nil]
      obtain ⟨e, hmem, hsf⟩ := enqueue_sends (createACKMessage st m).2 (createACKMessage st m).1
      refine ⟨e, hmem, ?_⟩
      unfold isAckFrameSendTo
      rw [hsf]
      simp [createACKMessage_type, createACKMessage_corr]
  · intro hty
    have hnw : m.type ≠ some "welcome" := by simp [hty]
    rw [onMessage_nonwelcome st m hnw hgen,
        capPhase_wrongType st m (by simp [hty]) (by simp [hty]) (by simp [hty]),
        if_neg (by simp)]
    dsimp only
    rw [autoAckPhase_excluded st m "ack" hty (by decide)]
    dsimp only
    rw [typePhase_ack_unmatched st m c hty hc hp]
    simp

/-- Helper: shape of a cancel frame: type, correlation, `sys` lane, and the
origin copied from the options when present. -/
theorem createCancelMessage_fields (st : ClientState) (c : Option Nat) (o : SubOpts) :
    (createCancelMessage st c o).1.type = some "cancel" ∧
    (createCancelMessage st c o).1.correlatesTo = c ∧
    (createCancelMessage st c o).1.lane = some "sys" ∧
    (createCancelMessage st c o).1.origin = o.origin := by
  cases ho : o.origin with
  | none =>
      refine ⟨?_, ?_, ?_, ?_⟩ <;>
        simp [createCancelMessage, createRPCMessage, ho, jsStrTruthy, jsSeqTruthy, jsTruthyOpt]
  | some x =>
      refine ⟨?_, ?_, ?_, ?_⟩ <;>
        simp [createCancelMessage, createRPCMessage, ho, jsStrTruthy, jsSeqTruthy, jsTruthyOpt]

/-- Helper: building a cancel frame only consumes a fresh id (it is on the
`sys` lane, so no sequence number is drawn). -/
theorem createCancelMessage_state (st : ClientState) (c : Option Nat) (o : SubOpts) :
    (createCancelMessage st c o).2 = { st with nextUuid := st.nextUuid + 1 } := by
  cases ho : o.origin with
  | none => simp [createCancelMessage, createRPCMessage, ho, jsStrTruthy, jsSeqTruthy]
  | some x => simp [createCancelMessage, createRPCMessage, ho, jsStrTruthy, jsSeqTruthy]

/-- Helper: the public `cancel` leaves pending and lane tables alone. -/
theorem cancel_state (st : ClientState) (c : Option Nat) (o : SubOpts) :
    (cancel st c o).1.pending = st.pending ∧
    (cancel st c o).1.laneStates = st.laneStates := by
  unfold cancel
  constructor
  · rw [(enqueue_tables _ _).1, createCancelMessage_state]
  · rw [(enqueue_tables _ _).2.2, createCancelMessage_state]

/-- Helper: the public `cancel` emits a cancel frame with the expected
correlation, lane, and origin. -/
theorem cancel_sends (st : ClientState) (c : Option Nat) (o : SubOpts) :
    ∃ e ∈ (cancel st c o).2, ∃ cm, sendsFrame e = some cm ∧ cm.type = some "cancel" ∧
      cm.correlatesTo = c ∧ cm.lane = some "sys" ∧ cm.origin = o.origin := by
  unfold cancel
  obtain ⟨e, hm, hs⟩ := enqueue_sends (createCancelMessage st c o).2 (createCancelMessage st c o).1
  obtain ⟨f1, f2, f3, f4⟩ := createCancelMessage_fields st c o
  exact ⟨e, hm, _, hs, f1, f2, f3, f4⟩

/-- Claim C6: for a request with a reply wait, the timeout timer duration is
the minimum of (the message budget, or the priority class serviceTtlMs, plus
the class clientPatienceExtraMs) and the configured hard timeout cap; when
the timer fires, the pending entry is removed, the lane accounting is
released, a best-effort cancel frame for the original id goes out carrying
the same origin when present, and the caller is rejected with `TIMEOUT`. -/
theorem c6_reply_timeout (st : ClientState) (m : RPCMessage) (lane : String)
    (opts : SubOpts) (i : Nat) (hid : m.id = some i) :
    ((sendWithReply st m lane opts).2.head? = some (Event.timerSet i
        (min ((m.budgetMs.getD (resolveClassCfg st opts).serviceTtlMs)
            + (resolveClassCfg st opts).clientPatienceExtraMs.getD 200)
          (st.settings.timeoutCapMs.getD 30000)))) ∧
    ((replyTimeoutFire st m lane).1.pending = alErase st.pending i) ∧
    ((replyTimeoutFire st m lane).2.getLast? = some (Event.rejectP i "TIMEOUT")) ∧
    (∃ e ∈ (replyTimeoutFire st m lane).2, ∃ cm, sendsFrame e = some cm ∧
        cm.type = some "cancel" ∧ cm.correlatesTo = some i ∧ cm.origin = m.origin ∧
        cm.lane = some "sys") ∧
    (∀ ls, alGet st.laneStates lane = some ls → ls.queue = [] →
        alGet (replyTimeoutFire st m lane).1.laneStates lane
          = some { ls with inFlight := ls.inFlight - 1 }) := by
  refine ⟨?_, ?_, ?_, ?_, ?_⟩
  · simp [sendWithReply, hid]
  · unfold replyTimeoutFire
    dsimp only
    split_ifs <;>
      (rw [(cancel_state _ _ _).1, (onLaneDone_tables _ _).1]; simp [hid])
  · unfold replyTimeoutFire
    dsimp only
    split_ifs <;> simp [hid, List.getLast?_append_cons]
  · unfold replyTimeoutFire
    dsimp only
    by_cases ho : m.origin.isSome
    · rw [if_pos ho]
      obtain ⟨e, hm, cm, hs, f1, f2, f3, f4⟩ :=
        cancel_sends (onLaneDone { st with pending := alErase st.pending (m.id.getD 0) } lane).1
          m.id { origin := m.origin }
      refine ⟨e, List.mem_append_left _ (List.mem_append_right _ hm), cm, hs, f1, ?_, ?_, f3⟩
      · rw [f2, hid]
      · rw [f4]
    · rw [if_neg ho]
      obtain ⟨e, hm, cm, hs, f1, f2, f3, f4⟩ :=
        cancel_sends (onLaneDone { st with pending := alErase st.pending (m.id.getD 0) } lane).1
          m.id {}
      refine ⟨e, List.mem_append_left _ (List.mem_append_right _ hm), cm, hs, f1, ?_, ?_, f3⟩
      · rw [f2, hid]
      · rw [f4]
        exact (Option.not_isSome_iff_eq_none.mp ho).symm
  · intro ls hls hq
    unfold replyTimeoutFire
    dsimp only
    have hod := onLaneDone_empty_queue { st with pending := alErase st.pending (m.id.getD 0) }
      lane ls hls hq
    split_ifs <;>
      (rw [(cancel_state _ _ _).2, hod.1, alGet_alSet_self])

/-- Witness for C6 on a concrete request with an explicit budget. -/
theorem c6_reply_timeout_witness :
    (sendWithReply wState reqMsg6 "cap:echo" {}).2.head? = some (Event.timerSet 50
        (min ((reqMsg6.budgetMs.getD (resolveClassCfg wState {}).serviceTtlMs)
            + (resolveClassCfg wState {}).clientPatienceExtraMs.getD 200)
          (wState.settings.timeoutCapMs.getD 30000))) ∧
    (replyTimeoutFire wState reqMsg6 "cap:echo").1.pending = alErase wState.pending 50 := by
  have h := c6_reply_timeout wState reqMsg6 "cap:echo" {} 50 rfl
  exact ⟨h.1, h.2.1⟩

/-- Helper: every way `#scheduleSend` can change a lane record: leave it (or
create the default), increment in-flight below the cap, or append to the
bounded queue. -/
theorem scheduleSend_lanes (st : ClientState) (m : RPCMessage) (L : String)
    (hL : (match m.lane with
           | some l' => if l' = "" then "noLaneSet" else l'
           | none => "noLaneSet") = L)
    (l2 : String) (ls2 : LaneState)
    (h : alGet (scheduleSend st m).1.laneStates l2 = some ls2) :
    ∃ base : LaneState,
      (alGet st.laneStates l2 = some base ∨ base = {}) ∧
      (ls2 = base ∨
       (base.inFlight < st.settings.maxInFlightPerLane.getD 64 ∧
         ls2 = { base with inFlight := base.inFlight + 1 }) ∨
       ls2 = { base with queue :=
         (if base.queue.length ≥ st.settings.maxQueue.getD 1024 then base.queue.drop 1
          else base.queue) ++ [m] }) := by
  unfold scheduleSend at h
  rw [hL] at h
  unfold getLaneState at h
  dsimp only at h
  cases halg : alGet st.laneStates L with
  | some ls =>
      rw [halg] at h
      try dsimp only at h
      split_ifs at h with h1 h2
      · rw [(enqueue_tables _ _).2.2] at h
        by_cases hl2 : l2 = L
        · subst hl2
          rw [alGet_alSet_self] at h
          have hcap : ls.inFlight < st.settings.maxInFlightPerLane.getD 64 := by
            simp [h2] at h1
            exact h1
          exact ⟨ls, Or.inl halg, Or.inr (Or.inl ⟨hcap, (Option.some.inj h).symm⟩)⟩
        · rw [alGet_alSet_ne _ _ _ _ hl2] at h
          exact ⟨ls2, Or.inl h, Or.inl rfl⟩
      · rw [(enqueue_tables _ _).2.2] at h
        exact ⟨ls2, Or.inl h, Or.inl rfl⟩
      · by_cases hl2 : l2 = L
        · subst hl2
          rw [alGet_alSet_self] at h
          refine ⟨ls, Or.inl halg, Or.inr (Or.inr ?_)⟩
          rw [← Option.some.inj h]
          split_ifs <;> simp_all
        · rw [alGet_alSet_ne _ _ _ _ hl2] at h
          exact ⟨ls2, Or.inl h, Or.inl rfl⟩
      · by_cases hl2 : l2 = L
        · subst hl2
          rw [alGet_alSet_self] at h
          refine ⟨ls, Or.inl halg, Or.inr (Or.inr ?_)⟩
          rw [← Option.some.inj h]
          split_ifs <;> simp_all
        · rw [alGet_alSet_ne _ _ _ _ hl2] at h
          exact ⟨ls2, Or.inl h, Or.inl rfl⟩
  | none =>
      rw [halg] at h
      try dsimp only at h
      split_ifs at h with h1 h2
      · rw [(enqueue_tables _ _).2.2] at h
        by_cases hl2 : l2 = L
        · subst hl2
          rw [alGet_alSet_self] at h
          have hcap : (({} : LaneState)).inFlight < st.settings.maxInFlightPerLane.getD 64 := by
            simp [h2] at h1
            exact h1
          exact ⟨{}, Or.inr rfl, Or.inr (Or.inl ⟨hcap, (Option.some.inj h).symm⟩)⟩
        · rw [alGet_alSet_ne _ _ _ _ hl2, alGet_alSet_ne _ _ _ _ hl2] at h
          exact ⟨ls2, Or.inl h, Or.inl rfl⟩
      · rw [(enqueue_tables _ _).2.2] at h
        by_cases hl2 : l2 = L
        · subst hl2
          rw [alGet_alSet_self] at h
          exact ⟨{}, Or.inr rfl, Or.inl (Option.some.inj h).symm⟩
        · rw [alGet_alSet_ne _ _ _ _ hl2] at h
          exact ⟨ls2, Or.inl h, Or.inl rfl⟩
      · by_cases hl2 : l2 = L
        · subst hl2
          rw [alGet_alSet_self] at h
          refine ⟨{}, Or.inr rfl, Or.inr (Or.inr ?_)⟩
          rw [← Option.some.inj h]
          split_ifs <;> simp_all
        · rw [alGet_alSet_ne _ _ _ _ hl2, alGet_alSet_ne _ _ _ _ hl2] at h
          exact ⟨ls2, Or.inl h, Or.inl rfl⟩
      · by_cases hl2 : l2 = L
        · subst hl2
          rw [alGet_alSet_self] at h
          refine ⟨{}, Or.inr rfl, Or.inr (Or.inr ?_)⟩
          rw [← Option.some.inj h]
          split_ifs <;> simp_all
        · rw [alGet_alSet_ne _ _ _ _ hl2, alGet_alSet_ne _ _ _ _ hl2] at h
          exact ⟨ls2, Or.inl h, Or.inl rfl⟩

/-- Helper: every way `#onLaneDone` can change a lane record: leave it (or
create the default), decrement in-flight, or decrement and drain one queued
message below the cap. -/
theorem onLaneDone_lanes (st : ClientState) (lane : String) (l2 : String) (ls2 : LaneState)
    (h : alGet (onLaneDone st lane).1.laneStates l2 = some ls2) :
    ∃ base : LaneState,
      (alGet st.laneStates l2 = some base ∨ base = {}) ∧
      (ls2 = base ∨
       ls2 = { base with inFlight := base.inFlight - 1 } ∨
       (∃ q rest, base.queue = q :: rest ∧
         base.inFlight - 1 < st.settings.maxInFlightPerLane.getD 64 ∧
         ls2 = { base with inFlight := base.inFlight - 1 + 1, queue := rest })) := by
  unfold onLaneDone at h
  unfold getLaneState at h
  dsimp only at h
  cases halg : alGet st.laneStates lane with
  | some ls =>
      rw [halg] at h
      try dsimp only at h
      cases hq : ls.queue with
      | nil =>
          rw [hq] at h
          try dsimp only at h
          by_cases hl2 : l2 = lane
          · subst hl2
            rw [alGet_alSet_self] at h
            refine ⟨ls, Or.inl halg, Or.inr (Or.inl ?_)⟩
            rw [← Option.some.inj h, hq]
          · rw [alGet_alSet_ne _ _ _ _ hl2] at h
            exact ⟨ls2, Or.inl h, Or.inl rfl⟩
      | cons q rest =>
          rw [hq] at h
          try dsimp only at h
          split_ifs at h with hcap
          · rw [(enqueue_tables _ _).2.2] at h
            by_cases hl2 : l2 = lane
            · subst hl2
              rw [alGet_alSet_self] at h
              exact ⟨ls, Or.inl halg,
                Or.inr (Or.inr ⟨q, rest, hq, hcap, (Option.some.inj h).symm⟩)⟩
            · rw [alGet_alSet_ne _ _ _ _ hl2] at h
              exact ⟨ls2, Or.inl h, Or.inl rfl⟩
          · by_cases hl2 : l2 = lane
            · subst hl2
              rw [alGet_alSet_self] at h
              refine ⟨ls, Or.inl halg, Or.inr (Or.inl ?_)⟩
              rw [← Option.some.inj h, hq]
            · rw [alGet_alSet_ne _ _ _ _ hl2] at h
              exact ⟨ls2, Or.inl h, Or.inl rfl⟩
  | none =>
      rw [halg] at h
      try dsimp only at h
      by_cases hl2 : l2 = lane
      · subst hl2
        rw [alGet_alSet_self] at h
        refine ⟨{}, Or.inr rfl, Or.inr (Or.inl ?_)⟩
        rw [← Option.some.inj h]
      · rw [alGet_alSet_ne _ _ _ _ hl2, alGet_alSet_ne _ _ _ _ hl2] at h
        exact ⟨ls2, Or.inl h, Or.inl rfl⟩

/-- Claim C2: the per-lane in-flight counter never exceeds the configured cap
(default 64): both scheduler transitions preserve the bound; a scheduled send
on a saturated (non-`sys`) lane is appended to that lane's bounded queue and
nothing is transmitted; and on completion of an outstanding send the counter
is decremented and exactly the head of the queue — FIFO — is drained when
capacity allows. -/
theorem c2_lane_flow_control :
    (∀ (st : ClientState) (m : RPCMessage),
        (∀ l ls, alGet st.laneStates l = some ls →
            ls.inFlight ≤ st.settings.maxInFlightPerLane.getD 64) →
        (∀ l ls, alGet (scheduleSend st m).1.laneStates l = some ls →
            ls.inFlight ≤ st.settings.maxInFlightPerLane.getD 64)) ∧
    (∀ (st : ClientState) (lane : String),
        (∀ l ls, alGet st.laneStates l = some ls →
            ls.inFlight ≤ st.settings.maxInFlightPerLane.getD 64) →
        (∀ l ls, alGet (onLaneDone st lane).1.laneStates l = some ls →
            ls.inFlight ≤ st.settings.maxInFlightPerLane.getD 64)) ∧
    (∀ (st : ClientState) (m : RPCMessage) (l : String) (ls : LaneState),
        m.lane = some l → l ≠ "sys" → l ≠ "" →
        alGet st.laneStates l = some ls →
        ¬(ls.inFlight < st.settings.maxInFlightPerLane.getD 64) →
        (scheduleSend st m).2 = [] ∧
        alGet (scheduleSend st m).1.laneStates l = some { ls with queue :=
          (if ls.queue.length ≥ st.settings.maxQueue.getD 1024 then ls.queue.drop 1
           else ls.queue) ++ [m] }) ∧
    (∀ (st : ClientState) (l : String) (ls : LaneState),
        alGet st.laneStates l = some ls →
        ((ls.queue = [] →
            alGet (onLaneDone st l).1.laneStates l
              = some { ls with inFlight := ls.inFlight - 1 } ∧
            (onLaneDone st l).2 = []) ∧
         (∀ q rest, ls.queue = q :: rest →
            ls.inFlight - 1 < st.settings.maxInFlightPerLane.getD 64 →
            alGet (onLaneDone st l).1.laneStates l
              = some { ls with inFlight := ls.inFlight - 1 + 1, queue := rest } ∧
            ∃ e ∈ (onLaneDone st l).2, sendsFrame e = some q))) := by
  refine ⟨?_, ?_, ?_, ?_⟩
  · intro st m hbound l ls hls
    obtain ⟨base, hbase, hcase⟩ := scheduleSend_lanes st m _ rfl l ls hls
    have hbb : base.inFlight ≤ st.settings.maxInFlightPerLane.getD 64 := by
      rcases hbase with hb | hb
      · exact hbound l base hb
      · rw [hb]; exact Nat.zero_le _
    rcases hcase with hc | ⟨hlt, hc⟩ | hc
    · rw [hc]; exact hbb
    · rw [hc]; exact hlt
    · rw [hc]; exact hbb
  · intro st lane hbound l ls hls
    obtain ⟨base, hbase, hcase⟩ := onLaneDone_lanes st lane l ls hls
    have hbb : base.inFlight ≤ st.settings.maxInFlightPerLane.getD 64 := by
      rcases hbase with hb | hb
      · exact hbound l base hb
      · rw [hb]; exact Nat.zero_le _
    rcases hcase with hc | hc | ⟨q, rest, hq, hcap, hc⟩
    · rw [hc]; exact hbb
    · rw [hc]; exact le_trans (Nat.sub_le _ _) hbb
    · rw [hc]; exact hcap
  · intro st m l ls hml hsys hempty hls hcap
    have hL : (match m.lane with
               | some l' => if l' = "" then "noLaneSet" else l'
               | none => "noLaneSet") = l := by
      rw [hml]; simp [hempty]
    have hthr : shouldThrottle m = true := by simp [shouldThrottle, hml, hsys]
    have hred : scheduleSend st m =
        ({ st with laneStates := alSet st.laneStates l { ls with queue :=
            (if ls.queue.length ≥ st.settings.maxQueue.getD 1024 then ls.queue.drop 1
             else ls.queue) ++ [m] } }, []) := by
      unfold scheduleSend getLaneState
      rw [hL]
      dsimp only
      rw [hls]
      simp [hthr, hcap]
    rw [hred]
    exact ⟨rfl, by rw [alGet_alSet_self]⟩
  · intro st l ls hls
    constructor
    · intro hq
      obtain ⟨h1, h2⟩ := onLaneDone_empty_queue st l ls hls hq
      exact ⟨by rw [h1, alGet_alSet_self], h2⟩
    · intro q rest hq hcap
      have hred : onLaneDone st l =
          enqueue { st with laneStates := (alSet st.laneStates l { ls with inFlight := ls.inFlight - 1 + 1, queue := rest }) } q := by
        unfold onLaneDone getLaneState
        dsimp only
        rw [hls]
        dsimp only
        rw [hq]
        dsimp only
        rw [if_pos hcap]
      rw [hred]
      constructor
      · rw [(enqueue_tables _ _).2.2, alGet_alSet_self]
      · exact enqueue_sends _ _

/-- Witness for C2 on a lane saturated at the default cap of 64: a further
send is queued without transmission, and a completion decrements in-flight. -/
theorem c2_lane_flow_control_witness :
    ((scheduleSend wStateFull capSlowMsg).2 = [] ∧
      alGet (scheduleSend wStateFull capSlowMsg).1.laneStates "cap:slow"
        = some { lsSlow with queue :=
            (if lsSlow.queue.length ≥ wStateFull.settings.maxQueue.getD 1024 then
              lsSlow.queue.drop 1
            else lsSlow.queue) ++ [capSlowMsg] }) ∧
    (alGet (onLaneDone wStateFull "cap:slow").1.laneStates "cap:slow"
        = some { lsSlow with inFlight := lsSlow.inFlight - 1 } ∧
      (onLaneDone wStateFull "cap:slow").2 = []) := by
  constructor
  · exact c2_lane_flow_control.2.2.1 wStateFull capSlowMsg "cap:slow" _ rfl (by decide)
      (by decide) rfl (by decide)
  · exact (c2_lane_flow_control.2.2.2 wStateFull "cap:slow" _ rfl).1 rfl

/-- Helper: the disconnect loop over the pending table, fully characterized
when every lane has an empty queue: it emits exactly one timer-clear and one
`DISCONNECTED` rejection per entry in order, leaves pending and subscriptions
as they were, and decrements each lane's in-flight counter once per entry on
that lane. -/
theorem closeFold_spec (entries : List (Nat × PendingEntry)) :
    ∀ (st0 : ClientState) (acc0 : List Event),
    (∀ l ls, alGet st0.laneStates l = some ls → ls.queue = []) →
    (∀ p ∈ entries, (alGet st0.laneStates p.2.lane).isSome = true) →
    ((entries.foldl (fun acc e =>
        let r2 := onLaneDone acc.1 e.2.lane
        (r2.1, acc.2 ++ [Event.timerCleared e.1, Event.rejectP e.1 "DISCONNECTED"] ++ r2.2))
        (st0, acc0)).2
      = acc0 ++ (entries.map (fun e =>
          [Event.timerCleared e.1, Event.rejectP e.1 "DISCONNECTED"])).join ∧
     (entries.foldl (fun acc e =>
        let r2 := onLaneDone acc.1 e.2.lane
        (r2.1, acc.2 ++ [Event.timerCleared e.1, Event.rejectP e.1 "DISCONNECTED"] ++ r2.2))
        (st0, acc0)).1.pending = st0.pending ∧
     (entries.foldl (fun acc e =>
        let r2 := onLaneDone acc.1 e.2.lane
        (r2.1, acc.2 ++ [Event.timerCleared e.1, Event.rejectP e.1 "DISCONNECTED"] ++ r2.2))
        (st0, acc0)).1.subscriptions = st0.subscriptions ∧
     (∀ l ls0, alGet st0.laneStates l = some ls0 →
        alGet (entries.foldl (fun acc e =>
          let r2 := onLaneDone acc.1 e.2.lane
          (r2.1, acc.2 ++ [Event.timerCleared e.1, Event.rejectP e.1 "DISCONNECTED"] ++ r2.2))
          (st0, acc0)).1.laneStates l
          = some { ls0 with inFlight :=
              ls0.inFlight - (entries.filter (fun p => p.2.lane = l)).length })) := by
  induction entries with
  | nil =>
      intro st0 acc0 hQ hP
      refine ⟨by simp, rfl, rfl, ?_⟩
      intro l ls0 hl
      simpa [alGet] using hl
  | cons e rest ih =>
      intro st0 acc0 hQ hP
      obtain ⟨ls, hls⟩ := Option.isSome_iff_exists.mp (hP e (by simp))
      have hq := hQ e.2.lane ls hls
      obtain ⟨hlanes, hevs⟩ := onLaneDone_empty_queue st0 e.2.lane ls hls hq
      have hpend := (onLaneDone_tables st0 e.2.lane).1
      have hsubs := (onLaneDone_tables st0 e.2.lane).2
      set st1 := (onLaneDone st0 e.2.lane).1 with hst1
      have hQ1 : ∀ l lsx, alGet st1.laneStates l = some lsx → lsx.queue = [] := by
        intro l lsx hlx
        rw [hlanes] at hlx
        by_cases hle : l = e.2.lane
        · subst hle
          rw [alGet_alSet_self] at hlx
          rw [← Option.some.inj hlx]
          exact hq
        · rw [alGet_alSet_ne _ _ _ _ hle] at hlx
          exact hQ l lsx hlx
      have hP1 : ∀ p ∈ rest, (alGet st1.laneStates p.2.lane).isSome = true := by
        intro p hp
        rw [hlanes]
        by_cases hle : p.2.lane = e.2.lane
        · rw [hle, alGet_alSet_self]; rfl
        · rw [alGet_alSet_ne _ _ _ _ hle]
          exact hP p (by simp [hp])
      obtain ⟨ih1, ih2, ih3, ih4⟩ := ih st1 (acc0 ++ [Event.timerCleared e.1,
        Event.rejectP e.1 "DISCONNECTED"] ++ (onLaneDone st0 e.2.lane).2) hQ1 hP1
      refine ⟨?_, ?_, ?_, ?_⟩
      · rw [List.foldl_cons] at *
        rw [ih1, hevs]
        simp
      · rw [List.foldl_cons, ih2, hst1, hpend]
      · rw [List.foldl_cons, ih3, hst1, hsubs]
      · intro l ls0 hl
        rw [List.foldl_cons]
        by_cases hle : l = e.2.lane
        · have hls0 : ls = ls0 := by
            rw [hle] at hl
            exact Option.some.inj (hls.symm.trans hl)
          have hmid : alGet st1.laneStates l
              = some { ls0 with inFlight := ls0.inFlight - 1 } := by
            rw [hlanes, hle, alGet_alSet_self, hls0]
          have hres := ih4 l { ls0 with inFlight := ls0.inFlight - 1 } hmid
          rw [hres]
          have hte : (e.2.lane = l) = True := by simp [hle]
          simp [List.filter_cons, hte, LaneState.mk.injEq]
          try omega
        · have hmid : alGet st1.laneStates l = some ls0 := by
            rw [hlanes, alGet_alSet_ne _ _ _ _ hle]
            exact hl
          have hres := ih4 l ls0 hmid
          rw [hres]
          have hfe : (e.2.lane = l) = False := eq_false fun h => hle h.symm
          simp [List.filter_cons, hfe]

/-- Helper: the disconnect loop events contain one `DISCONNECTED` rejection
of key `k` per pending entry keyed `k`. -/
theorem blockFilterCount (entries : List (Nat × PendingEntry)) (k : Nat) :
    ((entries.map (fun e =>
        [Event.timerCleared e.1, Event.rejectP e.1 "DISCONNECTED"])).join.filter
      (isDisconnectReject k)).length
      = (entries.map Prod.fst).count k := by
  induction entries with
  | nil => rfl
  | cons e rest ih =>
      have hhead : ([Event.timerCleared e.1,
          Event.rejectP e.1 "DISCONNECTED"].filter (isDisconnectReject k)).length
            = if e.1 = k then 1 else 0 := by
        by_cases hk : e.1 = k <;> simp [isDisconnectReject, hk]
      have hj : ∀ (x : List Event) (L : List (List Event)), (x :: L).join = x ++ L.join :=
        fun x L => rfl
      rw [List.map_cons, hj, List.filter_append, List.length_append, hhead, ih,
          List.map_cons, List.count_cons]
      by_cases hk : e.1 = k <;> simp [hk] <;> try omega

/-- Helper: the disconnect loop clears the timer of every pending entry. -/
theorem blockMemTimer (entries : List (Nat × PendingEntry)) (p : Nat × PendingEntry)
    (hp : p ∈ entries) :
    Event.timerCleared p.1 ∈ (entries.map (fun e =>
      [Event.timerCleared e.1, Event.rejectP e.1 "DISCONNECTED"])).join := by
  rw [List.mem_join]
  exact ⟨_, List.mem_map_of_mem _ hp, by simp⟩

/-- Helper: the only settle events of the disconnect loop are `DISCONNECTED`
rejections of pending keys. -/
theorem blockSettle (entries : List (Nat × PendingEntry)) :
    ∀ ev ∈ (entries.map (fun e =>
        [Event.timerCleared e.1, Event.rejectP e.1 "DISCONNECTED"])).join,
      isSettleEvent ev = true → ∃ p ∈ entries, ev = Event.rejectP p.1 "DISCONNECTED" := by
  intro ev hev hs
  rw [List.mem_join] at hev
  obtain ⟨l, hl, hevl⟩ := hev
  rw [List.mem_map] at hl
  obtain ⟨p, hp, hpl⟩ := hl
  rw [← hpl] at hevl
  simp at hevl
  rcases hevl with h | h
  · rw [h] at hs
    simp [isSettleEvent] at hs
  · exact ⟨p, hp, h⟩

/-- Helper: the disconnect loop transmits nothing. -/
theorem blockSends (entries : List (Nat × PendingEntry)) :
    ∀ ev ∈ (entries.map (fun e =>
        [Event.timerCleared e.1, Event.rejectP e.1 "DISCONNECTED"])).join,
      sendsFrame ev = none := by
  intro ev hev
  rw [List.mem_join] at hev
  obtain ⟨l, hl, hevl⟩ := hev
  rw [List.mem_map] at hl
  obtain ⟨p, hp, hpl⟩ := hl
  rw [← hpl] at hevl
  simp at hevl
  rcases hevl with h | h <;> rw [h] <;> rfl

/-- Claim C8: a message created on the `sys` lane carries no sequence number
(a JS-truthy pre-set one is removed) and is handed straight to the socket by
the scheduler without incrementing any in-flight counter or touching any
queue, while a message on any other (truthy) lane is assigned that lane's
next sequence number, starting at 1 for a fresh lane and incrementing by one
per message. -/
theorem c8_sys_lane_and_seq :
    (∀ (st : ClientState) (props : RPCMessage) (opts : SubOpts),
        props.lane = some "sys" → props.seq ≠ some 0 →
        (createRPCMessage st props opts).1.seq = none ∧
        (createRPCMessage st props opts).1.lane = some "sys") ∧
    (∀ (st : ClientState) (props : RPCMessage) (opts : SubOpts) (l : String),
        props.lane = some l → l ≠ "sys" → l ≠ "" →
        (createRPCMessage st props opts).1.seq
            = some (((alGet st.laneStates l).map LaneState.nextSeq).getD 1) ∧
        ((alGet (createRPCMessage st props opts).2.laneStates l).map LaneState.nextSeq)
            = some ((((alGet st.laneStates l).map LaneState.nextSeq).getD 1) + 1)) ∧
    (∀ (st : ClientState) (m2 : RPCMessage), m2.lane = some "sys" →
        (∃ e ∈ (scheduleSend st m2).2, sendsFrame e = some m2) ∧
        (∀ (l : String) (ls2 : LaneState),
            alGet (scheduleSend st m2).1.laneStates l = some ls2 →
            ls2.inFlight = ((alGet st.laneStates l).map LaneState.inFlight).getD 0 ∧
            ls2.queue = ((alGet st.laneStates l).map LaneState.queue).getD [])) := by
  refine ⟨?_, ?_, ?_⟩
  · intro st props opts hl hs0
    cases hsq : props.seq with
    | none =>
        constructor <;>
          simp [createRPCMessage, hl, hsq, jsStrTruthy, jsSeqTruthy,
            apply_ite RPCMessage.seq, apply_ite RPCMessage.lane]
    | some s =>
        have hs : (s != 0) = true := by
          have hne : s ≠ 0 := fun h => hs0 (by rw [hsq, h])
          simpa using hne
        constructor <;>
          simp [createRPCMessage, hl, hsq, jsStrTruthy, jsSeqTruthy, hs,
            apply_ite RPCMessage.seq, apply_ite RPCMessage.lane]
  · intro st props opts l hl hsys hempty
    have hlt : (l != "") = true := by simpa using hempty
    have hlsys : (some l = some "sys") = False := by simp [hsys]
    cases halg : alGet st.laneStates l with
    | some ls =>
        constructor <;>
          simp [createRPCMessage, nextSeq, getLaneState, hl, hlt, hlsys, halg,
            jsStrTruthy, alGet_alSet_self,
            apply_ite RPCMessage.seq, apply_ite RPCMessage.lane,
            apply_ite RPCMessage.route, apply_ite RPCMessage.payload,
            apply_ite Prod.fst, apply_ite Prod.snd]
    | none =>
        constructor <;>
          simp [createRPCMessage, nextSeq, getLaneState, hl, hlt, hlsys, halg,
            jsStrTruthy, alGet_alSet_self,
            apply_ite RPCMessage.seq, apply_ite RPCMessage.lane,
            apply_ite RPCMessage.route, apply_ite RPCMessage.payload,
            apply_ite Prod.fst, apply_ite Prod.snd]
  · intro st m2 hm2
    have hthr : shouldThrottle m2 = false := by simp [shouldThrottle, hm2]
    have hred : scheduleSend st m2 = enqueue (getLaneState st "sys").2 m2 := by
      unfold scheduleSend
      simp [hm2, hthr]
    constructor
    · rw [hred]
      exact enqueue_sends _ _
    · intro l ls2 hls2
      rw [hred, (enqueue_tables _ _).2.2] at hls2
      unfold getLaneState at hls2
      cases halg : alGet st.laneStates "sys" with
      | some ls =>
          rw [halg] at hls2
          dsimp only at hls2
          rw [hls2]
          simp
      | none =>
          rw [halg] at hls2
          dsimp only at hls2
          by_cases hlsys : l = "sys"
          · subst hlsys
            rw [alGet_alSet_self] at hls2
            cases hls2
            simp [halg]
          · rw [alGet_alSet_ne _ _ _ _ hlsys] at hls2
            rw [hls2]
            simp

/-- Witness for C8: on a fresh state, a `sys`-lane frame keeps no seq and is
sent immediately, and a data-lane frame draws sequence number 1. -/
theorem c8_sys_lane_and_seq_witness :
    ((createRPCMessage freshClient { lane := some "sys", seq := some 9 } {}).1.seq = none ∧
      (createRPCMessage freshClient { lane := some "sys", seq := some 9 } {}).1.lane
        = some "sys") ∧
    ((createRPCMessage freshClient { lane := some "cap:echo" } {}).1.seq
        = some (((alGet freshClient.laneStates "cap:echo").map LaneState.nextSeq).getD 1) ∧
      ((alGet (createRPCMessage freshClient { lane := some "cap:echo" } {}).2.laneStates
          "cap:echo").map LaneState.nextSeq)
        = some ((((alGet freshClient.laneStates "cap:echo").map LaneState.nextSeq).getD 1) + 1)) ∧
    (∃ e ∈ (scheduleSend wState { lane := some "sys", id := some 60 }).2,
        sendsFrame e = some { lane := some "sys", id := some 60 }) := by
  refine ⟨?_, ?_, ?_⟩
  · exact c8_sys_lane_and_seq.1 freshClient _ {} rfl (by decide)
  · exact c8_sys_lane_and_seq.2.1 freshClient _ {} "cap:echo" rfl (by decide) (by decide)
  · exact (c8_sys_lane_and_seq.2.2 wState _ rfl).1

/-- Witness for C10 on a concrete late reply and a concrete late ack. -/
theorem c10_unmatched_correlation_witness :
    ((onMessage wState lateReplyMsg).1.pending = wState.pending ∧
      (onMessage wState lateReplyMsg).1.subscriptions = wState.subscriptions ∧
      (onMessage wState lateReplyMsg).1.laneStates = wState.laneStates ∧
      (onMessage wState lateReplyMsg).2.filter isSettleEvent = [] ∧
      ∃ e ∈ (onMessage wState lateReplyMsg).2, isAckFrameSendTo (some 41) e = true) ∧
    onMessage wState lateAckMsg = (wState, []) := by
  constructor
  · exact (c10_unmatched_correlation wState lateReplyMsg 7 rfl rfl rfl (by rfl)).1 (Or.inl rfl)
  · exact (c10_unmatched_correlation wState lateAckMsg 7 rfl rfl rfl (by rfl)).2 rfl

/-- Helper: lookup misses when no key matches. -/
theorem alGet_eq_none_of {κ α : Type} [DecidableEq κ] (l : List (κ × α)) (k : κ)
    (h : ∀ p ∈ l, p.1 ≠ k) : alGet l k = none := by
  induction l with
  | nil => rfl
  | cons a rest ih =>
      unfold alGet
      rw [if_neg (h a (by simp))]
      exact ih (fun p hp => h p (by simp [hp]))

/-- Helper: erasing an absent key is the identity. -/
theorem alErase_eq_self {κ α : Type} [DecidableEq κ] (l : List (κ × α)) (k : κ)
    (h : ∀ p ∈ l, p.1 ≠ k) : alErase l k = l := by
  unfold alErase
  exact List.filter_eq_self.mpr (fun p hp => by simp [h p hp])

/-- Helper: setting an absent key appends the binding. -/
theorem alSet_append_of_none {κ α : Type} [DecidableEq κ] (l : List (κ × α)) (k : κ)
    (v : α) (h : alGet l k = none) : alSet l k v = l ++ [(k, v)] := by
  unfold alSet
  rw [h]
  rfl

/-- Helper: a derived lane key is never empty and never the `sys` lane. -/
theorem laneKey_valid (r : Option Route) (p : Option String) :
    laneKey r p ≠ "" ∧ laneKey r p ≠ "sys" := by
  have h4 : ("cap:" : String).length = 4 := rfl
  have h4b : ("obj:" : String).length = 4 := rfl
  have h0 : ("" : String).length = 0 := rfl
  have h3 : ("sys" : String).length = 3 := rfl
  cases r with
  | none =>
      rw [show laneKey none p = "noValidRouteLane" from rfl]
      exact ⟨by decide, by decide⟩
  | some rt =>
      unfold laneKey
      dsimp only
      split_ifs
      · constructor
        · intro h
          have hl := congrArg String.length h
          rw [String.length_append, h4, h0] at hl
          omega
        · intro h
          have hl := congrArg String.length h
          rw [String.length_append, h4, h3] at hl
          omega
      · constructor
        · intro h
          have hl := congrArg String.length h
          rw [String.length_append, h4b, h0] at hl
          omega
        · intro h
          have hl := congrArg String.length h
          rw [String.length_append, h4b, h3] at hl
          omega
      · exact ⟨by decide, by decide⟩

/-- Helper: the lane key ignores its priority argument. -/
theorem laneKey_prio (r : Option Route) (p : Option String) :
    laneKey r p = laneKey r none := rfl

/-- Helper: `#createRPCMessage` on subscribe-shaped props (route present, no
lane, no sequence, no generation, truthy payload): fields are kept, a fresh id
is stamped, the lane derived from the route draws that lane's sequence number,
and only the uuid counter and the lane table change on the state. -/
theorem createRPC_subscribe_spec (st : ClientState) (props : RPCMessage) (opts : SubOpts)
    (hroute : props.route.isSome = true)
    (hlane : props.lane = none)
    (hseq : props.seq = none)
    (hgen : props.gen = none)
    (hpayload : jsTruthyOpt props.payload = true) :
    (createRPCMessage st props opts).1.type = props.type ∧
    (createRPCMessage st props opts).1.id = some st.nextUuid ∧
    (createRPCMessage st props opts).1.route = props.route ∧
    (createRPCMessage st props opts).1.path = props.path ∧
    (createRPCMessage st props opts).1.op = props.op ∧
    (createRPCMessage st props opts).1.lane = some (laneKey props.route none) ∧
    (createRPCMessage st props opts).1.payload = props.payload ∧
    (createRPCMessage st props opts).2.nextUuid = st.nextUuid + 1 ∧
    (createRPCMessage st props opts).2.subscriptions = st.subscriptions ∧
    (createRPCMessage st props opts).2.pending = st.pending ∧
    (createRPCMessage st props opts).2.socketOpen = st.socketOpen ∧
    (createRPCMessage st props opts).2.settings = st.settings ∧
    (createRPCMessage st props opts).2.offlineQueue = st.offlineQueue ∧
    (createRPCMessage st props opts).2.generation = st.generation ∧
    (∀ l, l ≠ laneKey props.route none →
        alGet (createRPCMessage st props opts).2.laneStates l = alGet st.laneStates l) ∧
    (∃ lm, alGet (createRPCMessage st props opts).2.laneStates (laneKey props.route none)
          = some lm ∧
        lm.inFlight = (match alGet st.laneStates (laneKey props.route none) with
          | some ls0 => ls0.inFlight
          | none => 0)) := by
  have hne : laneKey props.route none ≠ "" := (laneKey_valid _ _).1
  have hsys : laneKey props.route none ≠ "sys" := (laneKey_valid _ _).2
  have hT : jsStrTruthy (some (laneKey props.route none)) = true := by
    simp [jsStrTruthy, hne]
  have hF : jsStrTruthy (none : Option String) = false := rfl
  have hSeqF : jsSeqTruthy (none : Option Nat) = false := rfl
  have hkey : createRPCMessage st props opts =
      ({ props with
          id := some st.nextUuid
          ts := some st.clock
          gen := st.generation
          origin := if opts.origin.isSome = true then opts.origin else props.origin
          lane := some (laneKey props.route none)
          seq := some (nextSeq { st with nextUuid := st.nextUuid + 1 }
            (laneKey props.route none)).1 },
        (nextSeq { st with nextUuid := st.nextUuid + 1 } (laneKey props.route none)).2) := by
    unfold createRPCMessage
    dsimp only
    by_cases ho : opts.origin.isSome = true <;>
      simp [ho, hroute, hlane, hseq, hgen, hpayload, laneKey_prio _ opts.priority,
        hT, hF, hSeqF, hsys, Option.orElse]
  rw [hkey]
  refine ⟨rfl, rfl, rfl, rfl, rfl, rfl, rfl, ?_, ?_, ?_, ?_, ?_, ?_, ?_, ?_, ?_⟩
  case _ =>
    unfold nextSeq getLaneState
    dsimp only
    cases halg : alGet st.laneStates (laneKey props.route none) <;> rfl
  case _ =>
    unfold nextSeq getLaneState
    dsimp only
    cases halg : alGet st.laneStates (laneKey props.route none) <;> rfl
  case _ =>
    unfold nextSeq getLaneState
    dsimp only
    cases halg : alGet st.laneStates (laneKey props.route none) <;> rfl
  case _ =>
    unfold nextSeq getLaneState
    dsimp only
    cases halg : alGet st.laneStates (laneKey props.route none) <;> rfl
  case _ =>
    unfold nextSeq getLaneState
    dsimp only
    cases halg : alGet st.laneStates (laneKey props.route none) <;> rfl
  case _ =>
    unfold nextSeq getLaneState
    dsimp only
    cases halg : alGet st.laneStates (laneKey props.route none) <;> rfl
  case _ =>
    unfold nextSeq getLaneState
    dsimp only
    cases halg : alGet st.laneStates (laneKey props.route none) <;> rfl
  case _ =>
    intro l hl
    unfold nextSeq getLaneState
    dsimp only
    cases halg : alGet st.laneStates (laneKey props.route none) <;> dsimp only
    · rw [alGet_alSet_ne _ _ _ _ hl, alGet_alSet_ne _ _ _ _ hl]
    · rw [alGet_alSet_ne _ _ _ _ hl]
  case _ =>
    unfold nextSeq getLaneState
    dsimp only
    cases halg : alGet st.laneStates (laneKey props.route none) <;> dsimp only
    · exact ⟨_, alGet_alSet_self _ _ _, rfl⟩
    · exact ⟨_, alGet_alSet_self _ _ _, rfl⟩

/-- Helper: `#createSubscribeMessage` keeps the stored route, path and op,
stamps a fresh id, derives the lane from the route, serializes the
priority-defaulted origin-stripped options into the payload, and touches only
the uuid counter and the lane table. -/
theorem createSubscribeMessage_spec (st : ClientState) (route : Route)
    (path op0 : Option String) (opts : SubOpts) :
    (createSubscribeMessage st route path op0 opts).1.type = some "subscribe" ∧
    (createSubscribeMessage st route path op0 opts).1.id = some st.nextUuid ∧
    (createSubscribeMessage st route path op0 opts).1.route = some route ∧
    (createSubscribeMessage st route path op0 opts).1.path = path ∧
    (createSubscribeMessage st route path op0 opts).1.op = op0 ∧
    (createSubscribeMessage st route path op0 opts).1.lane
      = some (laneKey (some route) none) ∧
    (createSubscribeMessage st route path op0 opts).1.payload
      = some (subOptsToJs (resumeOpts opts)) ∧
    (createSubscribeMessage st route path op0 opts).2.nextUuid = st.nextUuid + 1 ∧
    (createSubscribeMessage st route path op0 opts).2.subscriptions = st.subscriptions ∧
    (createSubscribeMessage st route path op0 opts).2.pending = st.pending ∧
    (createSubscribeMessage st route path op0 opts).2.socketOpen = st.socketOpen ∧
    (createSubscribeMessage st route path op0 opts).2.settings = st.settings ∧
    (createSubscribeMessage st route path op0 opts).2.offlineQueue = st.offlineQueue ∧
    (createSubscribeMessage st route path op0 opts).2.generation = st.generation ∧
    (∀ l, l ≠ laneKey (some route) none →
        alGet (createSubscribeMessage st route path op0 opts).2.laneStates l
          = alGet st.laneStates l) ∧
    (∃ lm, alGet (createSubscribeMessage st route path op0 opts).2.laneStates
          (laneKey (some route) none) = some lm ∧
        lm.inFlight = (match alGet st.laneStates (laneKey (some route) none) with
          | some ls0 => ls0.inFlight
          | none => 0)) := by
  unfold createSubscribeMessage
  dsimp only
  simp only [apply_ite RPCMessage.type, apply_ite RPCMessage.id, apply_ite RPCMessage.route,
    apply_ite RPCMessage.path, apply_ite RPCMessage.op, apply_ite RPCMessage.lane,
    apply_ite RPCMessage.payload, ite_self]
  exact createRPC_subscribe_spec st _ _ rfl rfl rfl rfl rfl

/-- Helper: `#scheduleSend` on an open socket, a throttled lane below the
in-flight cap: bump the lane's in-flight counter and transmit at once. -/
theorem scheduleSend_undercap (st : ClientState) (m : RPCMessage) (lk : String)
    (hlane : m.lane = some lk) (hne : lk ≠ "") (hsys : lk ≠ "sys")
    (hopen : st.socketOpen = true)
    (lm : LaneState) (hget : alGet st.laneStates lk = some lm)
    (hcap : lm.inFlight < st.settings.maxInFlightPerLane.getD 64) :
    scheduleSend st m
      = ({ st with laneStates := alSet st.laneStates lk { lm with inFlight := lm.inFlight + 1 } }, [Event.wireSend m]) := by
  have hth : shouldThrottle m = true := by
    unfold shouldThrottle
    rw [hlane]
    rw [if_neg (fun h => hsys (Option.some.inj h))]
  unfold scheduleSend getLaneState
  dsimp only
  rw [hlane]
  dsimp only
  rw [if_neg hne, hget]
  dsimp only
  rw [hth]
  simp only [Bool.not_true, Bool.false_or, decide_eq_true_eq, eq_self_iff_true, if_true]
  rw [if_pos hcap]
  unfold enqueue sendRaw
  simp only [hopen, eq_self_iff_true, if_true]

/-- Helper: `#sendWithAck` under the same conditions: register an ack-waiting
pending entry keyed by the message id, arm the ack timer, bump the lane
in-flight counter and transmit. -/
theorem sendWithAck_spec (st : ClientState) (m : RPCMessage) (mid : Nat) (lk : String)
    (hid : m.id = some mid) (hlane : m.lane = some lk) (hne : lk ≠ "") (hsys : lk ≠ "sys")
    (hopen : st.socketOpen = true)
    (lm : LaneState) (hget : alGet st.laneStates lk = some lm)
    (hcap : lm.inFlight < st.settings.maxInFlightPerLane.getD 64) :
    sendWithAck st m
      = ({ st with
            pending := alSet st.pending mid { wantAck := true, lane := lk }
            laneStates := alSet st.laneStates lk
              { lm with inFlight := lm.inFlight + 1 } },
         [Event.timerSet mid (st.settings.ackWaitMs.getD 250), Event.wireSend m]) := by
  unfold sendWithAck
  dsimp only
  rw [hid, hlane]
  dsimp only [Option.getD_some]
  rw [scheduleSend_undercap
    { st with pending := alSet st.pending mid { wantAck := true, lane := lk } }
    m lk hlane hne hsys hopen lm hget hcap]

/-- Helper: one resume-loop iteration under an open socket and an unsaturated
target lane: the table entry moves from the old key to the freshly drawn id
(the handle record updated in place), an ack-waiting pending entry and its
timer appear under the fresh id, the lane's in-flight counter grows by at most
one, and exactly one subscribe frame carrying the stored route, path, op and
serialized options is transmitted. -/
theorem resumeOne_spec (st : ClientState) (k : Nat) (sub : Subscription)
    (hopen : st.socketOpen = true)
    (hcap : ∀ ls, alGet st.laneStates (laneKey (some sub.invocation.route) none) = some ls →
        ls.inFlight < st.settings.maxInFlightPerLane.getD 64)
    (hM : 0 < st.settings.maxInFlightPerLane.getD 64) :
    (resumeOne st (k, sub)).1.subscriptions
      = alSet (alErase st.subscriptions k) st.nextUuid { sub with sid := st.nextUuid } ∧
    (resumeOne st (k, sub)).1.pending
      = alSet st.pending st.nextUuid
          { wantAck := true, lane := laneKey (some sub.invocation.route) none } ∧
    (resumeOne st (k, sub)).1.nextUuid = st.nextUuid + 1 ∧
    (resumeOne st (k, sub)).1.socketOpen = true ∧
    (resumeOne st (k, sub)).1.settings = st.settings ∧
    (resumeOne st (k, sub)).1.offlineQueue = st.offlineQueue ∧
    (resumeOne st (k, sub)).1.generation = st.generation ∧
    (∀ l ls, alGet (resumeOne st (k, sub)).1.laneStates l = some ls →
        (∃ ls0, alGet st.laneStates l = some ls0 ∧ ls.inFlight ≤ ls0.inFlight + 1)
          ∨ ls.inFlight ≤ 1) ∧
    (∃ fr, (resumeOne st (k, sub)).2
          = [Event.timerSet st.nextUuid (st.settings.ackWaitMs.getD 250), Event.wireSend fr] ∧
        fr.type = some "subscribe" ∧ fr.id = some st.nextUuid ∧
        fr.route = some sub.invocation.route ∧ fr.path = sub.invocation.path ∧
        fr.op = some (sub.invocation.op.getD "none") ∧
        fr.lane = some (laneKey (some sub.invocation.route) none) ∧
        fr.payload = some (subOptsToJs (resumeOpts sub.opts))) := by
  obtain ⟨s1, s2, s3, s4, s5, s6, s7, s8, s9, s10, s11, s12, s13, s14, s15, hex⟩ :=
    createSubscribeMessage_spec st sub.invocation.route sub.invocation.path
      (some (sub.invocation.op.getD "none")) sub.opts
  obtain ⟨lm, hlm, hlmF⟩ := hex
  set P := createSubscribeMessage st sub.invocation.route sub.invocation.path
    (some (sub.invocation.op.getD "none")) sub.opts with hP
  have hopen2 : P.2.socketOpen = true := by rw [s11]; exact hopen
  have hcap2 : lm.inFlight < P.2.settings.maxInFlightPerLane.getD 64 := by
    rw [s12, hlmF]
    cases halg : alGet st.laneStates (laneKey (some sub.invocation.route) none)
    · exact hM
    · exact hcap _ halg
  have hro : resumeOne st (k, sub)
      = ({ P.2 with
            subscriptions := alSet (alErase P.2.subscriptions k) (P.1.id.getD 0)
              { sub with sid := P.1.id.getD 0 }
            pending := alSet P.2.pending st.nextUuid
              { wantAck := true, lane := laneKey (some sub.invocation.route) none }
            laneStates := alSet P.2.laneStates (laneKey (some sub.invocation.route) none)
              { lm with inFlight := lm.inFlight + 1 } },
         [Event.timerSet st.nextUuid (P.2.settings.ackWaitMs.getD 250),
          Event.wireSend P.1]) := by
    unfold resumeOne
    dsimp only
    exact sendWithAck_spec
      { P.2 with subscriptions := alSet (alErase P.2.subscriptions k) (P.1.id.getD 0) { sub with sid := P.1.id.getD 0 } }
      P.1 st.nextUuid (laneKey (some sub.invocation.route) none)
      s2 s6 (laneKey_valid _ _).1 (laneKey_valid _ _).2 hopen2 lm hlm hcap2
  rw [hro]
  dsimp only
  refine ⟨?_, ?_, ?_, ?_, ?_, ?_, ?_, ?_, ?_⟩
  · rw [s9, s2]
    simp only [Option.getD_some]
  · rw [s10]
  · exact s8
  · rw [s11]
    exact hopen
  · exact s12
  · exact s13
  · exact s14
  · intro l ls hl
    by_cases hlk : l = laneKey (some sub.invocation.route) none
    · subst hlk
      rw [alGet_alSet_self] at hl
      have hx := Option.some.inj hl
      cases halg : alGet st.laneStates (laneKey (some sub.invocation.route) none) with
      | none =>
          rw [halg] at hlmF
          refine Or.inr ?_
          rw [← hx]
          dsimp only
          simp only [hlmF]
          omega
      | some ls0 =>
          rw [halg] at hlmF
          refine Or.inl ⟨ls0, rfl, ?_⟩
          rw [← hx]
          dsimp only
          simp only [hlmF]
          omega
    · rw [alGet_alSet_ne _ _ _ _ hlk] at hl
      rw [s15 l hlk] at hl
      exact Or.inl ⟨ls, hl, Nat.le_succ _⟩
  · refine ⟨P.1, ?_, s1, s2, s3, s4, s5, s6, s7⟩
    rw [s12]

/-- Helper: erasing the head key of an association list whose remaining keys
differ from it drops exactly the head. -/
theorem alErase_cons_self {κ α : Type} [DecidableEq κ] (k : κ) (v : α)
    (l : List (κ × α)) (h : ∀ p ∈ l, p.1 ≠ k) : alErase ((k, v) :: l) k = l := by
  unfold alErase
  rw [List.filter_cons]
  split_ifs with hc
  · simp at hc
  · exact List.filter_eq_self.mpr (fun p hp => by simp [h p hp])

/-- Helper: the subscription-resume loop over a snapshot of distinct
still-tracked entries with fresh uuid headroom and lane capacity: the final
table is the already-rekeyed prefix plus the snapshot rekeyed to consecutive
fresh ids with handles updated in place, each fresh id gains an ack-waiting
pending entry and an armed timer, older pending entries survive, and the
events are exactly one timer-arm plus one subscribe transmission per entry,
in snapshot order, each frame carrying the stored route, path, op and
serialized options. -/
theorem resumeFold_spec (snapshot : List (Nat × Subscription)) :
    ∀ (st0 : ClientState) (acc0 : List Event) (extra : List (Nat × Subscription)),
    st0.socketOpen = true →
    st0.subscriptions = snapshot ++ extra →
    (snapshot.map Prod.fst).Nodup →
    (∀ k2 ∈ snapshot.map Prod.fst, k2 < st0.nextUuid) →
    (∀ k2 ∈ extra.map Prod.fst, k2 < st0.nextUuid) →
    (∀ k2 ∈ snapshot.map Prod.fst, k2 ∉ extra.map Prod.fst) →
    snapshot.length ≤ st0.settings.maxInFlightPerLane.getD 64 →
    (∀ l ls, alGet st0.laneStates l = some ls →
        ls.inFlight + snapshot.length ≤ st0.settings.maxInFlightPerLane.getD 64) →
    ((snapshot.foldl (fun acc e =>
        let r := resumeOne acc.1 e
        (r.1, acc.2 ++ r.2)) (st0, acc0)).1.subscriptions
      = extra ++ (enumIdx st0.nextUuid snapshot).map
          (fun p => (p.1, { p.2.2 with sid := p.1 })) ∧
     (snapshot.foldl (fun acc e =>
        let r := resumeOne acc.1 e
        (r.1, acc.2 ++ r.2)) (st0, acc0)).1.nextUuid = st0.nextUuid + snapshot.length ∧
     (snapshot.foldl (fun acc e =>
        let r := resumeOne acc.1 e
        (r.1, acc.2 ++ r.2)) (st0, acc0)).1.socketOpen = true ∧
     (snapshot.foldl (fun acc e =>
        let r := resumeOne acc.1 e
        (r.1, acc.2 ++ r.2)) (st0, acc0)).1.settings = st0.settings ∧
     (snapshot.foldl (fun acc e =>
        let r := resumeOne acc.1 e
        (r.1, acc.2 ++ r.2)) (st0, acc0)).1.offlineQueue = st0.offlineQueue ∧
     (snapshot.foldl (fun acc e =>
        let r := resumeOne acc.1 e
        (r.1, acc.2 ++ r.2)) (st0, acc0)).1.generation = st0.generation ∧
     (∀ c e2, c < st0.nextUuid → alGet st0.pending c = some e2 →
        alGet (snapshot.foldl (fun acc e =>
          let r := resumeOne acc.1 e
          (r.1, acc.2 ++ r.2)) (st0, acc0)).1.pending c = some e2) ∧
     (∀ p ∈ enumIdx st0.nextUuid snapshot,
        alGet (snapshot.foldl (fun acc e =>
          let r := resumeOne acc.1 e
          (r.1, acc.2 ++ r.2)) (st0, acc0)).1.pending p.1
          = some { wantAck := true, lane := laneKey (some p.2.2.invocation.route) none }) ∧
     (∃ frames : List RPCMessage,
        (snapshot.foldl (fun acc e =>
          let r := resumeOne acc.1 e
          (r.1, acc.2 ++ r.2)) (st0, acc0)).2
          = acc0 ++ (frames.map (fun fr =>
              [Event.timerSet (fr.id.getD 0) (st0.settings.ackWaitMs.getD 250),
               Event.wireSend fr])).join ∧
        List.Forall₂ (fun fr (p : Nat × (Nat × Subscription)) =>
            fr.type = some "subscribe" ∧ fr.id = some p.1 ∧
            fr.route = some p.2.2.invocation.route ∧ fr.path = p.2.2.invocation.path ∧
            fr.op = some (p.2.2.invocation.op.getD "none") ∧
            fr.lane = some (laneKey (some p.2.2.invocation.route) none) ∧
            fr.payload = some (subOptsToJs (resumeOpts p.2.2.opts)))
          frames (enumIdx st0.nextUuid snapshot)) ∧
     (∀ p ∈ enumIdx st0.nextUuid snapshot,
        Event.timerSet p.1 (st0.settings.ackWaitMs.getD 250) ∈ (snapshot.foldl (fun acc e =>
          let r := resumeOne acc.1 e
          (r.1, acc.2 ++ r.2)) (st0, acc0)).2)) := by
  induction snapshot with
  | nil =>
      intro st0 acc0 extra h1 h2 h3 h4 h5 h6 h7 h8
      refine ⟨?_, by simp, h1, rfl, rfl, rfl, ?_, ?_, ⟨[], by simp, List.Forall₂.nil⟩, ?_⟩
      · simpa [enumIdx] using h2
      · intro c e2 _ he
        exact he
      · intro p hp
        simp [enumIdx] at hp
      · intro p hp
        simp [enumIdx] at hp
  | cons e rest ih =>
      intro st0 acc0 extra h1 h2 h3 h4 h5 h6 h7 h8
      obtain ⟨k0, sub0⟩ := e
      rw [List.cons_append] at h2
      rw [List.map_cons] at h3 h4 h6
      obtain ⟨hk0nin, h3t⟩ := List.nodup_cons.mp h3
      have hMx : 0 < st0.settings.maxInFlightPerLane.getD 64 := by
        have := h7
        simp [List.length_cons] at this
        omega
      have hcapx : ∀ ls, alGet st0.laneStates
          (laneKey (some sub0.invocation.route) none) = some ls →
          ls.inFlight < st0.settings.maxInFlightPerLane.getD 64 := by
        intro ls hls
        have := h8 _ _ hls
        simp [List.length_cons] at this
        omega
      obtain ⟨r1, r2, r3, r4, r5, r6, r7, r8, r9⟩ :=
        resumeOne_spec st0 k0 sub0 h1 hcapx hMx
      obtain ⟨fr0, hfr0ev, hty0, hid0, hrt0, hpa0, hop0, hln0, hpl0⟩ := r9
      have herase : alErase st0.subscriptions k0 = rest ++ extra := by
        rw [h2]
        apply alErase_cons_self
        intro p hp
        rcases List.mem_append.mp hp with hmem | hmem
        · intro hk
          apply hk0nin
          show k0 ∈ List.map Prod.fst rest
          rw [← hk]
          exact List.mem_map_of_mem Prod.fst hmem
        · intro hk
          apply h6 k0 (by simp)
          show k0 ∈ List.map Prod.fst extra
          rw [← hk]
          exact List.mem_map_of_mem Prod.fst hmem
      have hfreshsub : alGet (rest ++ extra) st0.nextUuid = none := by
        apply alGet_eq_none_of
        intro p hp
        rcases List.mem_append.mp hp with hmem | hmem
        · exact Nat.ne_of_lt (h4 p.1
            (List.mem_cons.mpr (Or.inr (List.mem_map_of_mem Prod.fst hmem))))
        · exact Nat.ne_of_lt (h5 p.1 (List.mem_map_of_mem Prod.fst hmem))
      have hsubs1 : (resumeOne st0 (k0, sub0)).1.subscriptions
          = rest ++ (extra ++ [(st0.nextUuid, { sub0 with sid := st0.nextUuid })]) := by
        rw [r1, herase, alSet_append_of_none _ _ _ hfreshsub, List.append_assoc]
      have h1x : (resumeOne st0 (k0, sub0)).1.socketOpen = true := r4
      have h4x : ∀ k2 ∈ rest.map Prod.fst, k2 < (resumeOne st0 (k0, sub0)).1.nextUuid := by
        intro k2 hk2
        rw [r3]
        have := h4 k2 (List.mem_cons.mpr (Or.inr hk2))
        omega
      have h5x : ∀ k2 ∈ (extra ++ [(st0.nextUuid,
          { sub0 with sid := st0.nextUuid })]).map Prod.fst,
          k2 < (resumeOne st0 (k0, sub0)).1.nextUuid := by
        intro k2 hk2
        rw [r3]
        rw [List.map_append] at hk2
        rcases List.mem_append.mp hk2 with hmem | hmem
        · have := h5 k2 hmem
          omega
        · simp at hmem
          omega
      have h6x : ∀ k2 ∈ rest.map Prod.fst,
          k2 ∉ (extra ++ [(st0.nextUuid, { sub0 with sid := st0.nextUuid })]).map Prod.fst := by
        intro k2 hk2
        rw [List.map_append]
        intro hmem
        rcases List.mem_append.mp hmem with hm | hm
        · exact h6 k2 (List.mem_cons.mpr (Or.inr hk2)) hm
        · simp at hm
          have := h4 k2 (List.mem_cons.mpr (Or.inr hk2))
          omega
      have h7x : rest.length ≤ (resumeOne st0 (k0, sub0)).1.settings.maxInFlightPerLane.getD 64 := by
        rw [r5]
        have := h7
        simp [List.length_cons] at this
        omega
      have h8x : ∀ l ls, alGet (resumeOne st0 (k0, sub0)).1.laneStates l = some ls →
          ls.inFlight + rest.length
            ≤ (resumeOne st0 (k0, sub0)).1.settings.maxInFlightPerLane.getD 64 := by
        intro l ls hl
        rw [r5]
        rcases r8 l ls hl with ⟨ls0, hls0, hle⟩ | hle1
        · have := h8 l ls0 hls0
          simp [List.length_cons] at this
          omega
        · have h71 := h7
          simp [List.length_cons] at h71
          omega
      obtain ⟨i1, i2, i3, i4, i5, i6, i7, i8, i9, i10⟩ :=
        ih (resumeOne st0 (k0, sub0)).1
          (acc0 ++ [Event.timerSet st0.nextUuid (st0.settings.ackWaitMs.getD 250),
            Event.wireSend fr0])
          (extra ++ [(st0.nextUuid, { sub0 with sid := st0.nextUuid })])
          h1x hsubs1 h3t h4x h5x h6x h7x h8x
      rw [r3] at i1 i2 i8 i9 i10
      rw [r5] at i9 i10
      obtain ⟨framesIH, hIH1, hIH2⟩ := i9
      rw [List.foldl_cons]
      dsimp only
      rw [hfr0ev]
      refine ⟨?_, ?_, i3, ?_, ?_, ?_, ?_, ?_, ?_, ?_⟩
      · rw [i1]
        rw [show enumIdx st0.nextUuid ((k0, sub0) :: rest)
          = (st0.nextUuid, (k0, sub0)) :: enumIdx (st0.nextUuid + 1) rest from rfl]
        rw [List.map_cons, List.append_assoc, List.singleton_append]
      · rw [i2]
        simp [List.length_cons]
        omega
      · rw [i4, r5]
      · rw [i5, r6]
      · rw [i6, r7]
      · intro c e2 hc he
        apply i7 c e2 (by rw [r3]; omega)
        rw [r2, alGet_alSet_ne _ _ _ _ (Nat.ne_of_lt hc)]
        exact he
      · intro p hp
        rw [show enumIdx st0.nextUuid ((k0, sub0) :: rest)
          = (st0.nextUuid, (k0, sub0)) :: enumIdx (st0.nextUuid + 1) rest from rfl] at hp
        rcases List.mem_cons.mp hp with hpe | hmem
        · subst hpe
          apply i7 st0.nextUuid _ (by rw [r3]; omega)
          rw [r2, alGet_alSet_self]
        · exact i8 p hmem
      · refine ⟨fr0 :: framesIH, ?_, ?_⟩
        · rw [hIH1, List.map_cons, hid0]
          have hj : ∀ (x : List Event) (L : List (List Event)), (x :: L).join = x ++ L.join :=
            fun x L => rfl
          rw [hj]
          simp only [Option.getD_some]
          rw [List.append_assoc]
        · rw [show enumIdx st0.nextUuid ((k0, sub0) :: rest)
            = (st0.nextUuid, (k0, sub0)) :: enumIdx (st0.nextUuid + 1) rest from rfl]
          exact List.Forall₂.cons ⟨hty0, hid0, hrt0, hpa0, hop0, hln0, hpl0⟩ hIH2
      · intro p hp
        rw [show enumIdx st0.nextUuid ((k0, sub0) :: rest)
          = (st0.nextUuid, (k0, sub0)) :: enumIdx (st0.nextUuid + 1) rest from rfl] at hp
        rcases List.mem_cons.mp hp with hpe | hmem
        · subst hpe
          rw [hIH1]
          exact List.mem_append_left _ (List.mem_append_right _ (by simp))
        · exact i10 p hmem

/-- Helper: `#setReady` never touches anything but the ready flag, and emits
at most the ready-change notification. -/
theorem setReady_fields (st : ClientState) (v : Bool) :
    (setReady st v).1.subscriptions = st.subscriptions ∧
    (setReady st v).1.pending = st.pending ∧
    (setReady st v).1.laneStates = st.laneStates ∧
    (setReady st v).1.socketOpen = st.socketOpen ∧
    (setReady st v).1.settings = st.settings ∧
    (setReady st v).1.offlineQueue = st.offlineQueue ∧
    (setReady st v).1.nextUuid = st.nextUuid ∧
    (setReady st v).1.generation = st.generation ∧
    ((setReady st v).2 = [] ∨ (setReady st v).2 = [Event.readyChange v]) := by
  unfold setReady
  split_ifs
  · exact ⟨rfl, rfl, rfl, rfl, rfl, rfl, rfl, rfl, Or.inl rfl⟩
  · exact ⟨rfl, rfl, rfl, rfl, rfl, rfl, rfl, rfl, Or.inr rfl⟩

/-- Helper: `#flushQueue` on an open socket drains the offline queue to the
wire in order. -/
theorem flushQueue_open (st : ClientState) (h : st.socketOpen = true) :
    flushQueue st
      = ({ st with offlineQueue := [] }, st.offlineQueue.map Event.wireSend) := by
  unfold flushQueue
  rw [if_pos h]

/-- Helper: a frame whose generation equals the held one is not stale. -/
theorem staleDrop_self (st : ClientState) (m : RPCMessage)
    (h : st.generation = m.gen) : staleDrop st m = false := by
  unfold staleDrop
  rw [h]
  cases m.gen with
  | none => rfl
  | some g => simp

/-- Helper: filtering the resume-loop event blocks for subscribe
transmissions leaves exactly the subscribe frames, in order. -/
theorem subFilter_blocks (frames : List RPCMessage) (w : Nat)
    (hty : ∀ fr ∈ frames, fr.type = some "subscribe") :
    ((frames.map (fun fr =>
        [Event.timerSet (fr.id.getD 0) w, Event.wireSend fr])).join.filter isSubscribeSend)
      = frames.map Event.wireSend := by
  induction frames with
  | nil => rfl
  | cons fr rest ihf =>
      have hj : ∀ (x : List Event) (L : List (List Event)), (x :: L).join = x ++ L.join :=
        fun x L => rfl
      rw [List.map_cons, hj, List.filter_append,
        ihf (fun f hf => hty f (by simp [hf])), List.map_cons]
      have h2 : isSubscribeSend (Event.wireSend fr) = true := by
        simp [isSubscribeSend, sendsFrame, hty fr (by simp)]
      simp [List.filter_cons, isSubscribeSend, sendsFrame, h2, hty fr (by simp)]

/-- Helper: wrapping pairwise-related frames as wire sends keeps the pairwise
relation. -/
theorem forall₂_wire {β : Type} (R : RPCMessage → β → Prop) (frames : List RPCMessage)
    (l : List β) (h : List.Forall₂ R frames l) :
    List.Forall₂ (fun e p => ∃ fr, e = Event.wireSend fr ∧ R fr p)
      (frames.map Event.wireSend) l := by
  induction h with
  | nil => exact List.Forall₂.nil
  | cons hr _ ihh => exact List.Forall₂.cons ⟨_, rfl, hr⟩ ihh

/-- Helper: each left element of a pairwise relation has a related right
element. -/
theorem forall₂_mem_left {α β : Type} (R : α → β → Prop) (l1 : List α) (l2 : List β)
    (h : List.Forall₂ R l1 l2) : ∀ a ∈ l1, ∃ b, R a b := by
  induction h with
  | nil => simp
  | cons hr _ ihh =>
      intro a ha
      rcases List.mem_cons.mp ha with he | hm
      · exact ⟨_, he ▸ hr⟩
      · exact ihh a hm

/-- Claim C4: a welcome frame after reconnect re-issues, for every
still-tracked subscription in table order, exactly one new subscribe frame
carrying a consecutively drawn fresh message id and the stored route, path,
op (defaulted to `none`) and serialized options; the subscription table is
re-keyed to the fresh ids with the same handle records updated in place
(`sid` overwritten); and each frame is sent ack-only: an ack-waiting pending
entry and an ack timer are installed per frame, with no reply-waiting state
(a resume failure surfaces only through the ack timeout path, so it is not
fatal to the connection).  Assumes an open socket after reconnect with an
empty offline queue, distinct tracked keys below the uuid counter, and lane
headroom for the resubscriptions. -/
theorem c4_welcome_resume (st : ClientState) (m : RPCMessage)
    (hty : m.type = some "welcome")
    (hoff : st.offlineQueue = [])
    (hopen : st.socketOpen = true)
    (hnodup : (st.subscriptions.map Prod.fst).Nodup)
    (hlt : ∀ k ∈ st.subscriptions.map Prod.fst, k < st.nextUuid)
    (hlen : st.subscriptions.length ≤ st.settings.maxInFlightPerLane.getD 64)
    (hlanes : ∀ l ls, alGet st.laneStates l = some ls →
        ls.inFlight + st.subscriptions.length ≤ st.settings.maxInFlightPerLane.getD 64) :
    (onMessage st m).1.subscriptions
      = (enumIdx st.nextUuid st.subscriptions).map
          (fun p => (p.1, { p.2.2 with sid := p.1 })) ∧
    (∀ p ∈ enumIdx st.nextUuid st.subscriptions,
        alGet (onMessage st m).1.pending p.1
          = some { wantAck := true, lane := laneKey (some p.2.2.invocation.route) none } ∧
        Event.timerSet p.1 (st.settings.ackWaitMs.getD 250) ∈ (onMessage st m).2) ∧
    List.Forall₂ (fun e (p : Nat × (Nat × Subscription)) => ∃ fr, e = Event.wireSend fr ∧
        fr.type = some "subscribe" ∧ fr.id = some p.1 ∧
        fr.route = some p.2.2.invocation.route ∧ fr.path = p.2.2.invocation.path ∧
        fr.op = some (p.2.2.invocation.op.getD "none") ∧
        fr.payload = some (subOptsToJs (resumeOpts p.2.2.opts)))
      ((onMessage st m).2.filter isSubscribeSend) (enumIdx st.nextUuid st.subscriptions) := by
  obtain ⟨hsr1, hsr2, hsr3, hsr4, hsr5, hsr6, hsr7, hsr8, hsr9⟩ :=
    setReady_fields { st with generation := m.gen } true
  have hP1open : (setReady { st with generation := m.gen } true).1.socketOpen = true := by
    rw [hsr4]
    exact hopen
  have hfq := flushQueue_open (setReady { st with generation := m.gen } true).1 hP1open
  set ST2 : ClientState := { (flushQueue (setReady { st with generation := m.gen } true).1).1 with lastWelcome := (match m.payload with | some pl => jsFieldOpt pl "state" | none => none) } with hST2def
  have hST2subs : ST2.subscriptions = st.subscriptions := by
    rw [hST2def, hfq]
    dsimp only
    exact hsr1
  have hST2nu : ST2.nextUuid = st.nextUuid := by
    rw [hST2def, hfq]
    dsimp only
    exact hsr7
  have hST2set : ST2.settings = st.settings := by
    rw [hST2def, hfq]
    dsimp only
    exact hsr5
  have hST2lanes : ST2.laneStates = st.laneStates := by
    rw [hST2def, hfq]
    dsimp only
    exact hsr3
  have hST2open : ST2.socketOpen = true := by
    rw [hST2def, hfq]
    dsimp only
    rw [hsr4]
    exact hopen
  have hST2gen : ST2.generation = m.gen := by
    rw [hST2def, hfq]
    dsimp only
    rw [hsr8]
  have hq2 : (flushQueue (setReady { st with generation := m.gen } true).1).2 = [] := by
    rw [hfq]
    dsimp only
    rw [hsr6]
    dsimp only
    rw [hoff]
    rfl
  have hh2 : ST2.subscriptions = ST2.subscriptions ++ [] := by simp
  have hh3 : (ST2.subscriptions.map Prod.fst).Nodup := by
    rw [hST2subs]
    exact hnodup
  have hh4 : ∀ k2 ∈ ST2.subscriptions.map Prod.fst, k2 < ST2.nextUuid := by
    rw [hST2subs, hST2nu]
    exact hlt
  have hh5 : ∀ k2 ∈ ([] : List (Nat × Subscription)).map Prod.fst, k2 < ST2.nextUuid := by
    simp
  have hh6 : ∀ k2 ∈ ST2.subscriptions.map Prod.fst,
      k2 ∉ ([] : List (Nat × Subscription)).map Prod.fst := by
    simp
  have hh7 : ST2.subscriptions.length ≤ ST2.settings.maxInFlightPerLane.getD 64 := by
    rw [hST2subs, hST2set]
    exact hlen
  have hh8 : ∀ l ls, alGet ST2.laneStates l = some ls →
      ls.inFlight + ST2.subscriptions.length ≤ ST2.settings.maxInFlightPerLane.getD 64 := by
    rw [hST2lanes, hST2subs, hST2set]
    exact hlanes
  obtain ⟨f1, f2, f3, f4, f5, f6, f7, f8, f9, f10⟩ :=
    resumeFold_spec ST2.subscriptions ST2 [] [] hST2open hh2 hh3 hh4 hh5 hh6 hh7 hh8
  obtain ⟨frames, hfr1, hfr2⟩ := f9
  have hrl : resumeLoop ST2 = ST2.subscriptions.foldl (fun acc e =>
      let r := resumeOne acc.1 e
      (r.1, acc.2 ++ r.2)) (ST2, []) := rfl
  have hwp : welcomePhase st m = ((resumeLoop ST2).1,
      (setReady { st with generation := m.gen } true).2
        ++ (flushQueue (setReady { st with generation := m.gen } true).1).2
        ++ (resumeLoop ST2).2 ++ [Event.welcomeEmit]) := by
    unfold welcomePhase
    rw [hty]
    rw [if_pos rfl]
  have hgen : (welcomePhase st m).1.generation = m.gen := by
    rw [hwp]
    dsimp only
    rw [hrl, f6]
    exact hST2gen
  have hsd : staleDrop (welcomePhase st m).1 m = false := staleDrop_self _ m hgen
  have hom : onMessage st m = ((welcomePhase st m).1, (welcomePhase st m).2) := by
    unfold onMessage
    dsimp only
    rw [hsd]
    rw [if_neg (by simp : ¬(false = true))]
    rw [capPhase_wrongType (welcomePhase st m).1 m (by rw [hty]; simp) (by rw [hty]; simp)
      (by rw [hty]; simp)]
    dsimp only
    rw [if_neg (by simp : ¬(false = true))]
    rw [autoAckPhase_excluded (welcomePhase st m).1 m "welcome" hty (by decide)]
    dsimp only
    rw [typePhase_other (welcomePhase st m).1 m (by rw [hty]; simp) (by rw [hty]; simp)
      (by rw [hty]; simp) (by rw [hty]; simp) (by rw [hty]; simp) (by rw [hty]; simp)]
    dsimp only
    simp
  refine ⟨?_, ?_, ?_⟩
  · rw [hom]
    dsimp only
    rw [hwp]
    dsimp only
    rw [hrl, f1, hST2nu, hST2subs]
    simp
  · intro p hp
    have hp2 : p ∈ enumIdx ST2.nextUuid ST2.subscriptions := by
      rw [hST2nu, hST2subs]
      exact hp
    constructor
    · rw [hom]
      dsimp only
      rw [hwp]
      dsimp only
      rw [hrl]
      exact f8 p hp2
    · have ht := f10 p hp2
      rw [hST2set] at ht
      rw [hom]
      dsimp only
      rw [hwp]
      dsimp only
      rw [hrl]
      exact List.mem_append_left _ (List.mem_append_right _ ht)
  · have htys : ∀ fr ∈ frames, fr.type = some "subscribe" := by
      intro fr hf
      obtain ⟨b, hb⟩ := forall₂_mem_left _ _ _ hfr2 fr hf
      exact hb.1
    have hsub := subFilter_blocks frames (ST2.settings.ackWaitMs.getD 250) htys
    rw [hST2nu, hST2subs] at hfr2
    rw [hom]
    dsimp only
    rw [hwp]
    dsimp only
    rw [hrl, hfr1, hq2]
    rcases hsr9 with hse | hse <;>
      rw [hse] <;>
      simp only [List.filter_append, List.append_nil, List.nil_append] <;>
      rw [hsub] <;>
      simp only [show isSubscribeSend Event.welcomeEmit = false from rfl,
        show isSubscribeSend (Event.readyChange true) = false from rfl,
        List.filter_cons, List.filter_nil, if_false, Bool.false_eq_true,
        List.append_nil, List.nil_append] <;>
      exact List.Forall₂.imp (fun a b h => by
        obtain ⟨fr, he, h1, h2, h3, h4, h5, h6, h7⟩ := h
        exact ⟨fr, he, h1, h2, h3, h4, h5, h7⟩) (forall₂_wire _ frames _ hfr2)

/-- Witness for C4 on a concrete client tracking two subscriptions: the
table is re-keyed to the fresh ids 100 and 101, the first resubscription is
pending ack-only on lane `cap:echo`, and its ack timer is armed. -/
theorem c4_welcome_resume_witness :
    (onMessage wStateSubs wcMsg).1.subscriptions
      = [(100, { subEcho with sid := 100 }), (101, { subLog with sid := 101 })] ∧
    alGet (onMessage wStateSubs wcMsg).1.pending 100
      = some { wantAck := true, lane := "cap:echo" } ∧
    Event.timerSet 100 250 ∈ (onMessage wStateSubs wcMsg).2 := by
  have h := c4_welcome_resume wStateSubs wcMsg rfl rfl rfl (by decide) (by decide)
    (by decide)
    (by intro l ls hl
        rw [show wStateSubs.laneStates = ([] : List (String × LaneState)) from rfl] at hl
        simp [alGet] at hl)
  refine ⟨?_, ?_, ?_⟩
  · rw [h.1]
    rfl
  · have h2 := (h.2.1 (100, (5, subEcho)) (by decide)).1
    rw [h2]
    rfl
  · exact (h.2.1 (100, (5, subEcho)) (by decide)).2

/-- Claim C3: when the connection closes, assuming pending keys are distinct
(guaranteed by uuid allocation), lane queues are empty, and every pending
entry's lane is tracked: the pending table is emptied, the subscription table
is left intact, every pending entry is rejected with `DISCONNECTED` exactly
once and has its timer cleared, the only promise-settling events are those
rejections (so nothing is resolved, rejected twice, or retried), no frame is
transmitted, and each lane's in-flight count drops by the number of pending
entries on that lane. -/
theorem c3_disconnect_rejects_pending (st : ClientState)
    (hnodup : (st.pending.map Prod.fst).Nodup)
    (hQ : ∀ l ls, alGet st.laneStates l = some ls → ls.queue = [])
    (hP : ∀ p ∈ st.pending, (alGet st.laneStates p.2.lane).isSome = true) :
    (onClose st).1.pending = [] ∧
    (onClose st).1.subscriptions = st.subscriptions ∧
    (∀ p ∈ st.pending,
        ((onClose st).2.filter (isDisconnectReject p.1)).length = 1 ∧
        Event.timerCleared p.1 ∈ (onClose st).2) ∧
    (∀ e ∈ (onClose st).2, isSettleEvent e = true →
        ∃ p ∈ st.pending, e = Event.rejectP p.1 "DISCONNECTED") ∧
    (∀ e ∈ (onClose st).2, sendsFrame e = none) ∧
    (∀ l ls, alGet st.laneStates l = some ls →
        alGet (onClose st).1.laneStates l
          = some { ls with inFlight :=
              ls.inFlight - (st.pending.filter (fun p => p.2.lane = l)).length }) := by
  have hps : (setReady st false).1.pending = st.pending := by
    unfold setReady; split_ifs <;> rfl
  have hpl : (setReady st false).1.laneStates = st.laneStates := by
    unfold setReady; split_ifs <;> rfl
  have hpsub : (setReady st false).1.subscriptions = st.subscriptions := by
    unfold setReady; split_ifs <;> rfl
  have hpev : (setReady st false).2 = []
      ∨ (setReady st false).2 = [Event.readyChange false] := by
    unfold setReady; split_ifs
    · exact Or.inl rfl
    · exact Or.inr rfl
  have h2p : (stopHeartbeat { (setReady st false).1 with
      connected := false, socketOpen := false }).pending = st.pending := hps
  have h2l : (stopHeartbeat { (setReady st false).1 with
      connected := false, socketOpen := false }).laneStates = st.laneStates := hpl
  have h2s : (stopHeartbeat { (setReady st false).1 with
      connected := false, socketOpen := false }).subscriptions = st.subscriptions := hpsub
  have hQ2 : ∀ l ls, alGet (stopHeartbeat { (setReady st false).1 with
      connected := false, socketOpen := false }).laneStates l = some ls → ls.queue = [] := by
    rw [h2l]; exact hQ
  have hP2 : ∀ p ∈ (stopHeartbeat { (setReady st false).1 with
        connected := false, socketOpen := false }).pending,
      (alGet (stopHeartbeat { (setReady st false).1 with
        connected := false, socketOpen := false }).laneStates p.2.lane).isSome = true := by
    rw [h2p, h2l]; exact hP
  obtain ⟨f1, f2, f3, f4⟩ := closeFold_spec
    (stopHeartbeat { (setReady st false).1 with
      connected := false, socketOpen := false }).pending
    (stopHeartbeat { (setReady st false).1 with
      connected := false, socketOpen := false }) [] hQ2 hP2
  have e1 : (onClose st).1.pending = ([] : List (Nat × PendingEntry)) := rfl
  have e2 : (onClose st).1.subscriptions
      = ((stopHeartbeat { (setReady st false).1 with
          connected := false, socketOpen := false }).pending.foldl (fun acc e =>
        let r2 := onLaneDone acc.1 e.2.lane
        (r2.1, acc.2 ++ [Event.timerCleared e.1,
          Event.rejectP e.1 "DISCONNECTED"] ++ r2.2))
        (stopHeartbeat { (setReady st false).1 with
          connected := false, socketOpen := false }, [])).1.subscriptions := rfl
  have e3 : (onClose st).1.laneStates
      = ((stopHeartbeat { (setReady st false).1 with
          connected := false, socketOpen := false }).pending.foldl (fun acc e =>
        let r2 := onLaneDone acc.1 e.2.lane
        (r2.1, acc.2 ++ [Event.timerCleared e.1,
          Event.rejectP e.1 "DISCONNECTED"] ++ r2.2))
        (stopHeartbeat { (setReady st false).1 with
          connected := false, socketOpen := false }, [])).1.laneStates := rfl
  have e4 : ∃ a b, (onClose st).2
      = (setReady st false).2
        ++ ((stopHeartbeat { (setReady st false).1 with
            connected := false, socketOpen := false }).pending.foldl (fun acc e =>
          let r2 := onLaneDone acc.1 e.2.lane
          (r2.1, acc.2 ++ [Event.timerCleared e.1,
            Event.rejectP e.1 "DISCONNECTED"] ++ r2.2))
          (stopHeartbeat { (setReady st false).1 with
            connected := false, socketOpen := false }, [])).2
        ++ [Event.reconnectScheduled a b] := ⟨_, _, rfl⟩
  obtain ⟨a, b, hev⟩ := e4
  refine ⟨e1, ?_, ?_, ?_, ?_, ?_⟩
  · rw [e2, f3, h2s]
  · intro p hp
    have hm : p.1 ∈ st.pending.map Prod.fst := List.mem_map_of_mem _ hp
    have h1 := List.count_eq_one_of_mem hnodup hm
    constructor
    · rw [hev, f1]
      have hbc := blockFilterCount
        (stopHeartbeat { (setReady st false).1 with
          connected := false, socketOpen := false }).pending p.1
      rcases hpev with h | h <;>
        rw [h] <;>
        simp only [List.nil_append, List.filter_append, List.length_append] <;>
        rw [hbc, h2p, h1] <;>
        simp [isDisconnectReject]
    · rw [hev, f1]
      have hbm := blockMemTimer
        (stopHeartbeat { (setReady st false).1 with
          connected := false, socketOpen := false }).pending p (by rw [h2p]; exact hp)
      simp only [List.mem_append, List.nil_append]
      exact Or.inl (Or.inr hbm)
  · intro e he hs
    rw [hev, f1] at he
    simp only [List.mem_append, List.nil_append] at he
    rcases he with (he | he) | he
    · rcases hpev with h | h <;> rw [h] at he <;> simp at he
      rw [he] at hs
      simp [isSettleEvent] at hs
    · obtain ⟨p, hp2, heq⟩ := blockSettle _ e he hs
      rw [h2p] at hp2
      exact ⟨p, hp2, heq⟩
    · simp at he
      rw [he] at hs
      simp [isSettleEvent] at hs
  · intro e he
    rw [hev, f1] at he
    simp only [List.mem_append, List.nil_append] at he
    rcases he with (he | he) | he
    · rcases hpev with h | h <;> rw [h] at he <;> simp at he
      rw [he]; rfl
    · exact blockSends _ e he
    · simp at he
      rw [he]; rfl
  · intro l ls hl
    rw [e3]
    have hl2 : alGet (stopHeartbeat { (setReady st false).1 with
        connected := false, socketOpen := false }).laneStates l = some ls := by
      rw [h2l]; exact hl
    have hres := f4 l ls hl2
    rw [hres, h2p]

/-- Witness for C3 on a client with two pending entries on lane `cap:a`. -/
theorem c3_disconnect_rejects_pending_witness :
    (onClose wStatePend).1.pending = [] ∧
    (onClose wStatePend).1.subscriptions = wStatePend.subscriptions ∧
    ((onClose wStatePend).2.filter (isDisconnectReject 10)).length = 1 ∧
    alGet (onClose wStatePend).1.laneStates "cap:a"
      = some { nextSeq := 3, inFlight := 0 } := by
  have hQ : ∀ l ls, alGet wStatePend.laneStates l = some ls → ls.queue = [] := by
    intro l ls hl
    rw [show wStatePend.laneStates
        = [("cap:a", { nextSeq := 3, inFlight := 2 })] from rfl] at hl
    unfold alGet at hl
    split_ifs at hl
    · rw [← Option.some.inj hl]
    · exact absurd hl (by unfold alGet; simp)
  have h := c3_disconnect_rejects_pending wStatePend (by decide) hQ (by decide)
  refine ⟨h.1, h.2.1, (h.2.2.1 (10, pendA) (by decide)).1, ?_⟩
  have hres := h.2.2.2.2.2 "cap:a" { nextSeq := 3, inFlight := 2 } rfl
  rw [hres]
  rfl

end Turnix
